import Mathlib

/-!
Shallow embedding of the chip8-rs CHIP-8 interpreter core (src/main.rs).

The emulated machine state is the `Chip8` struct; one fetch-decode-execute
cycle is `emulate_cycle`, translated arm by arm from `Chip8::emulate_cycle`.
Rust panics (stack underflow and overflow, unknown instruction, out-of-range
array indexing) are modelled as `Except` errors. Machine integers are `Nat`
with explicit reductions: u8 arithmetic is taken modulo 256 and u16
arithmetic modulo 65536 at each operation that can overflow, matching the
release-mode wrapping semantics the 16-bit data model of the interpreter
assumes. Array fields are total functions from `Nat`; every access the Rust
code performs through a possibly out-of-range index goes through a checked
read or write that faults exactly when the Rust indexing would.
-/

set_option maxHeartbeats 3200000

namespace Chip8Rs

/-- Runtime faults of `emulate_cycle`: the three fatal conditions the Rust
code raises explicitly, plus the implicit out-of-range array indexing fault
of the framebuffer and memory accesses. -/
inductive Fault where
  | StackUnderflow
  | StackOverflow
  | UnknownInstruction (op : Nat)
  | IndexOutOfBounds
deriving DecidableEq

/-- Modelled from the spec: the pseudo-random source is the external
xorshift crate (Xoroshiro128), which is not part of this repository. Per the
spec it is a seeded deterministic generator; each call to the random-byte
primitive advances the generator state once and returns the low 8 bits of a
32-bit generation. We model the generator as an abstract stream of 32-bit
values together with a position that advances once per call. -/
structure RandomState where
  stream : Nat → Nat
  pos : Nat

/-- The interpreter state, mirroring the fields of `struct Chip8`.
Memory is 4096 bytes, registers 16 bytes, the framebuffer 64 times 32
cells, the stack 16 u16 slots and the keys 16 booleans; sizes are enforced
at each checked access, as in the Rust code. -/
structure Chip8 where
  memory : Nat → Nat
  registers : Nat → Nat
  framebuffer : Nat → Nat
  stack : Nat → Nat
  keys : Nat → Bool
  opcode : Nat
  index : Nat
  program_counter : Nat
  stack_pointer : Nat
  random : RandomState
  delay_timer : Nat
  sound_timer : Nat
  redraw_flag : Bool
  beep_flag : Bool
  last_key : Option Nat

/-- Checked read of `memory`, faulting like the Rust index operator. -/
def memRead (s : Chip8) (i : Nat) : Except Fault Nat :=
  if i < 4096 then .ok (s.memory i) else .error .IndexOutOfBounds

/-- Checked write to `memory`. -/
def memWrite (s : Chip8) (i v : Nat) : Except Fault Chip8 :=
  if i < 4096 then
    .ok { s with memory := fun j => if j = i then v else s.memory j }
  else .error .IndexOutOfBounds

/-- Checked read of `framebuffer`. -/
def fbRead (s : Chip8) (i : Nat) : Except Fault Nat :=
  if i < 2048 then .ok (s.framebuffer i) else .error .IndexOutOfBounds

/-- Checked write to `framebuffer`. -/
def fbWrite (s : Chip8) (i v : Nat) : Except Fault Chip8 :=
  if i < 2048 then
    .ok { s with framebuffer := fun j => if j = i then v else s.framebuffer j }
  else .error .IndexOutOfBounds

/-- Write to a general-purpose register. Register indices in the Rust code
are always nibbles masked into the range 0..15, so this access is total. -/
def setReg (s : Chip8) (i v : Nat) : Chip8 :=
  { s with registers := fun j => if j = i then v else s.registers j }

/-- Chip8::rand. Consumes one 32-bit generation and keeps its low byte. -/
def randNext (s : Chip8) : Nat × Chip8 :=
  (s.random.stream s.random.pos % 4294967296 &&& 0xFF,
   { s with random := { stream := s.random.stream, pos := s.random.pos + 1 } })

/-- One set source bit of a DXYN blit: the read-test-xor on a single
framebuffer cell, setting the collision flag when the cell was already 1. -/
def drawBit (s : Chip8) (idx : Nat) : Except Fault Chip8 :=
  match fbRead s idx with
  | .ok cur =>
    let s1 := if cur = 1 then setReg s 15 1 else s
    fbWrite s1 idx (cur ^^^ 1)
  | .error e => .error e

/-- The inner `for x_line in 0..8` loop of DXYN, over the listed columns. -/
def drawBits (pixel x rowY : Nat) : List Nat → Chip8 → Except Fault Chip8
  | [], s => .ok s
  | xl :: rest, s =>
    if pixel &&& (0x80 >>> xl) ≠ 0 then
      match drawBit s (x + xl + rowY * 64) with
      | .ok s1 => drawBits pixel x rowY rest s1
      | .error e => .error e
    else drawBits pixel x rowY rest s

/-- The outer `for y_line in 0..height` loop of DXYN, over the listed rows:
read one sprite byte from memory at `index + y_line`, then blit its bits. -/
def drawSprite (x y : Nat) : List Nat → Chip8 → Except Fault Chip8
  | [], s => .ok s
  | yl :: rest, s =>
    match memRead s (s.index + yl) with
    | .ok pixel =>
      match drawBits pixel x (y + yl) (List.range 8) s with
      | .ok s1 => drawSprite x y rest s1
      | .error e => .error e
    | .error e => .error e

/-- The `for x in 0..=x` loop of FX55 over the listed register indices:
write each register to memory at `index` and advance `index` by one. -/
def storeRegs : List Nat → Chip8 → Except Fault Chip8
  | [], s => .ok s
  | i :: rest, s =>
    match memWrite s s.index (s.registers i) with
    | .ok s1 => storeRegs rest { s1 with index := (s1.index + 1) % 65536 }
    | .error e => .error e

/-- The `for x in 0..=x` loop of FX65 over the listed register indices:
load each register from memory at `index` and advance `index` by one. -/
def loadRegs : List Nat → Chip8 → Except Fault Chip8
  | [], s => .ok s
  | i :: rest, s =>
    match memRead s s.index with
    | .ok v => loadRegs rest { setReg s i v with index := (s.index + 1) % 65536 }
    | .error e => .error e

/-- The opcode dispatch of `Chip8::emulate_cycle`: the outer match on the
top nibble and the secondary matches of the 0x0, 0x8, 0xE and 0xF families,
translated arm by arm from the Rust match expression. -/
def execOpcode (s : Chip8) (op : Nat) : Except Fault Chip8 :=
  match op &&& 0xF000 with
  | 0x0000 =>
    match op &&& 0x0FFF with
    | 0x0000 =>
      .ok { s with program_counter := (s.program_counter + 2) % 65536 }
    | 0x00E0 =>
      .ok { s with framebuffer := fun _ => 0, redraw_flag := true,
                   program_counter := (s.program_counter + 2) % 65536 }
    | 0x00EE =>
      if s.stack_pointer = 0 then .error .StackUnderflow
      else
        .ok { s with stack_pointer := s.stack_pointer - 1,
                     program_counter :=
                       (s.stack (s.stack_pointer - 1) + 2) % 65536 }
    | _ => .error (.UnknownInstruction op)
  | 0x1000 => .ok { s with program_counter := op &&& 0x0FFF }
  | 0x2000 =>
    if 15 ≤ s.stack_pointer then .error .StackOverflow
    else
      .ok { s with
        stack := fun j => if j = s.stack_pointer then s.program_counter
                          else s.stack j,
        stack_pointer := s.stack_pointer + 1,
        program_counter := op &&& 0x0FFF }
  | 0x3000 =>
    if s.registers ((op &&& 0x0F00) >>> 8) = op &&& 0x00FF then
      .ok { s with program_counter := (s.program_counter + 4) % 65536 }
    else
      .ok { s with program_counter := (s.program_counter + 2) % 65536 }
  | 0x4000 =>
    if s.registers ((op &&& 0x0F00) >>> 8) ≠ op &&& 0x00FF then
      .ok { s with program_counter := (s.program_counter + 4) % 65536 }
    else
      .ok { s with program_counter := (s.program_counter + 2) % 65536 }
  | 0x5000 =>
    if s.registers ((op &&& 0x0F00) >>> 8)
        = s.registers ((op &&& 0x00F0) >>> 4) then
      .ok { s with program_counter := (s.program_counter + 4) % 65536 }
    else
      .ok { s with program_counter := (s.program_counter + 2) % 65536 }
  | 0x6000 =>
    .ok { setReg s ((op &&& 0x0F00) >>> 8) (op &&& 0x00FF) with
          program_counter := (s.program_counter + 2) % 65536 }
  | 0x7000 =>
    .ok { setReg s ((op &&& 0x0F00) >>> 8)
            ((s.registers ((op &&& 0x0F00) >>> 8) + (op &&& 0x00FF)) % 256) with
          program_counter := (s.program_counter + 2) % 65536 }
  | 0x8000 =>
    let x := (op &&& 0x0F00) >>> 8
    let y := (op &&& 0x00F0) >>> 4
    let r : Except Fault Chip8 :=
      match op &&& 0x000F with
      | 0x0000 => .ok (setReg s x (s.registers y))
      | 0x0001 => .ok (setReg s x (s.registers x ||| s.registers y))
      | 0x0002 => .ok (setReg s x (s.registers x &&& s.registers y))
      | 0x0003 => .ok (setReg s x (s.registers x ^^^ s.registers y))
      | 0x0004 =>
        let sum := s.registers x + s.registers y
        let s1 := setReg s 15 (if 256 ≤ sum then 1 else 0)
        .ok (setReg s1 x (sum % 256))
      | 0x0005 =>
        let borrow := s.registers x < s.registers y
        let result := (s.registers x + 256 - s.registers y) % 256
        let s1 := setReg s 15 (if borrow then 0 else 1)
        .ok (setReg s1 x result)
      | 0x0006 =>
        let s1 := setReg s 15 (s.registers y &&& 0x01)
        .ok (setReg s1 x (s1.registers y >>> 1))
      | 0x0007 =>
        let borrow := s.registers y < s.registers x
        let result := (s.registers y + 256 - s.registers x) % 256
        let s1 := setReg s 15 (if borrow then 0 else 1)
        .ok (setReg s1 x result)
      | 0x000E =>
        let s1 := setReg s 15 (s.registers y &&& 0x80)
        .ok (setReg s1 x ((s1.registers y <<< 1) % 256))
      | _ => .error (.UnknownInstruction op)
    match r with
    | .ok s2 => .ok { s2 with program_counter := (s2.program_counter + 2) % 65536 }
    | .error e => .error e
  | 0x9000 =>
    if s.registers ((op &&& 0x0F00) >>> 8)
        ≠ s.registers ((op &&& 0x00F0) >>> 4) then
      .ok { s with program_counter := (s.program_counter + 4) % 65536 }
    else
      .ok { s with program_counter := (s.program_counter + 2) % 65536 }
  | 0xA000 =>
    .ok { s with index := op &&& 0x0FFF,
                 program_counter := (s.program_counter + 2) % 65536 }
  | 0xB000 =>
    .ok { s with program_counter := ((op &&& 0x0FFF) + s.registers 0) % 65536 }
  | 0xC000 =>
    let rs := randNext s
    .ok { setReg rs.2 ((op &&& 0x0F00) >>> 8) (rs.1 &&& (op &&& 0x00FF)) with
          program_counter := (s.program_counter + 2) % 65536 }
  | 0xD000 =>
    let x := s.registers ((op &&& 0x0F00) >>> 8)
    let y := s.registers ((op &&& 0x00F0) >>> 4)
    let height := op &&& 0x000F
    match drawSprite x y (List.range height) (setReg s 15 0) with
    | .ok s2 => .ok { s2 with program_counter := (s2.program_counter + 2) % 65536,
                              redraw_flag := true }
    | .error e => .error e
  | 0xE000 =>
    let x := (op &&& 0x0F00) >>> 8
    match op &&& 0x00FF with
    | 0x009E =>
      if s.keys x then
        .ok { s with program_counter := (s.program_counter + 4) % 65536 }
      else
        .ok { s with program_counter := (s.program_counter + 2) % 65536 }
    | 0x00A1 =>
      if s.keys x then
        .ok { s with program_counter := (s.program_counter + 2) % 65536 }
      else
        .ok { s with program_counter := (s.program_counter + 4) % 65536 }
    | _ => .error (.UnknownInstruction op)
  | 0xF000 =>
    let x := (op &&& 0x0F00) >>> 8
    match op &&& 0x00FF with
    | 0x0007 =>
      .ok { setReg s x s.delay_timer with
            program_counter := (s.program_counter + 2) % 65536 }
    | 0x000A =>
      match s.last_key with
      | some key =>
        .ok { setReg s x (key % 256) with
              program_counter := (s.program_counter + 2) % 65536 }
      | none => .ok s
    | 0x0015 =>
      .ok { s with delay_timer := s.registers x,
                   program_counter := (s.program_counter + 2) % 65536 }
    | 0x0018 =>
      .ok { s with sound_timer := s.registers x,
                   program_counter := (s.program_counter + 2) % 65536 }
    | 0x001E =>
      .ok { s with index := (s.index + s.registers x) % 65536,
                   program_counter := (s.program_counter + 2) % 65536 }
    | 0x0029 =>
      .ok { s with index := 0x050 + s.registers x * 5,
                   program_counter := (s.program_counter + 2) % 65536 }
    | 0x0033 =>
      match memWrite s s.index (s.registers x / 100) with
      | .ok s1 =>
        match memWrite s1 (s1.index + 1) (s.registers x / 10 % 10) with
        | .ok s2 =>
          match memWrite s2 (s2.index + 2) (s.registers x % 100 % 10) with
          | .ok s3 =>
            .ok { s3 with program_counter := (s3.program_counter + 2) % 65536 }
          | .error e => .error e
        | .error e => .error e
      | .error e => .error e
    | 0x0055 =>
      match storeRegs (List.range (x + 1)) s with
      | .ok s1 =>
        .ok { s1 with program_counter := (s1.program_counter + 2) % 65536 }
      | .error e => .error e
    | 0x0065 =>
      match loadRegs (List.range (x + 1)) s with
      | .ok s1 =>
        .ok { s1 with program_counter := (s1.program_counter + 2) % 65536 }
      | .error e => .error e
    | _ => .error (.UnknownInstruction op)
  | _ => .error (.UnknownInstruction op)

/-- The timer and key-latch epilogue of `emulate_cycle`: decrement the delay
timer if nonzero; decrement the sound timer if nonzero, raising the beep
flag when it is about to go from 1 to 0; clear the key latch. -/
def tick (s : Chip8) : Chip8 :=
  let s1 := if 0 < s.delay_timer then { s with delay_timer := s.delay_timer - 1 }
            else s
  let s2 :=
    if 0 < s1.sound_timer then
      let s1b := if s1.sound_timer = 1 then { s1 with beep_flag := true } else s1
      { s1b with sound_timer := s1b.sound_timer - 1 }
    else s1
  { s2 with last_key := none }

/-- The fetch and execute portion of `emulate_cycle`: read the big-endian
opcode at the program counter, record it in the `opcode` field, dispatch. -/
def fetchExec (s : Chip8) : Except Fault Chip8 :=
  match memRead s s.program_counter with
  | .ok hi =>
    match memRead s (s.program_counter + 1) with
    | .ok lo =>
      let op := (hi <<< 8) ||| lo
      execOpcode { s with opcode := op } op
    | .error e => .error e
  | .error e => .error e

/-- Chip8::emulate_cycle: fetch, decode, execute, then run the timer and
key-latch epilogue. A fault aborts the cycle before the epilogue. -/
def emulate_cycle (s : Chip8) : Except Fault Chip8 :=
  match fetchExec s with
  | .ok t => .ok (tick t)
  | .error e => .error e

/-- Host keycodes recognized by `Chip8::set_key_state`; `Other` stands for
every keycode the Rust match sends to its early-return arm. -/
inductive Keycode where
  | Num1 | Num2 | Num3 | Num4
  | Q | W | E | R
  | A | S | D | F
  | Z | X | C | V
  | Other

/-- The keycode-to-key-index table inside `Chip8::set_key_state`. -/
def keycodeIndex : Keycode → Option Nat
  | .Num1 => some 0x1
  | .Num2 => some 0x2
  | .Num3 => some 0x3
  | .Num4 => some 0xC
  | .Q => some 0x4
  | .W => some 0x5
  | .E => some 0x6
  | .R => some 0xD
  | .A => some 0x7
  | .S => some 0x8
  | .D => some 0x9
  | .F => some 0xE
  | .Z => some 0xA
  | .X => some 0x0
  | .C => some 0xB
  | .V => some 0xF
  | .Other => none

/-- Chip8::set_key_state: translate the host keycode, and for a recognized
key store the direction in `keys` and record the index in the latch. -/
def set_key_state (s : Chip8) (key : Keycode) (pressed : Bool) : Chip8 :=
  match keycodeIndex key with
  | none => s
  | some i =>
    { s with keys := fun j => if j = i then pressed else s.keys j,
             last_key := some i }

/-- Iterate `emulate_cycle`, stopping at the first fault. -/
def stepN (s : Chip8) : Nat → Except Fault Chip8
  | 0 => .ok s
  | n + 1 =>
    match emulate_cycle s with
    | .ok s1 => stepN s1 n
    | .error e => .error e

/-- Fault projection of a cycle result. -/
def faultOf : Except Fault Chip8 → Option Fault
  | .ok _ => none
  | .error e => some e

/-- Program-counter projection of a cycle result. -/
def okPC : Except Fault Chip8 → Option Nat
  | .ok s => some s.program_counter
  | .error _ => none

/-- Register projection of a cycle result. -/
def okReg (i : Nat) : Except Fault Chip8 → Option Nat
  | .ok s => some (s.registers i)
  | .error _ => none

/-- Beep-flag projection of a cycle result. -/
def okBeep : Except Fault Chip8 → Option Bool
  | .ok s => some s.beep_flag
  | .error _ => none

/-- Stack-pointer projection of a cycle result. -/
def okSP : Except Fault Chip8 → Option Nat
  | .ok s => some s.stack_pointer
  | .error _ => none

/-- Framebuffer-cell projection of a cycle result. -/
def okFB (i : Nat) : Except Fault Chip8 → Option Nat
  | .ok s => some (s.framebuffer i)
  | .error _ => none

/-- Index-register projection of a cycle result. -/
def okIndex : Except Fault Chip8 → Option Nat
  | .ok s => some s.index
  | .error _ => none

/-- A concrete all-zero machine state used by witnesses: blank memory,
registers, framebuffer, stack and keys, program counter at 0x200. -/
def zeroState : Chip8 where
  memory := fun _ => 0
  registers := fun _ => 0
  framebuffer := fun _ => 0
  stack := fun _ => 0
  keys := fun _ => false
  opcode := 0
  index := 0
  program_counter := 0x200
  stack_pointer := 0
  random := { stream := fun _ => 0, pos := 0 }
  delay_timer := 0
  sound_timer := 0
  redraw_flag := false
  beep_flag := false
  last_key := none

/-- Concrete machine for the C4 witness: opcode 7105 at the entry point. -/
def c4state : Chip8 :=
  { zeroState with
    memory := fun i => if i = 0x200 then 0x71 else if i = 0x201 then 5 else 0 }
/-- Concrete machine for C1: a chain of 2NNN call instructions, the one at
address 0x200 + 2k calling address 0x202 + 2k, starting with an empty
stack. -/
def c1state : Chip8 :=
  { zeroState with
    memory := fun a =>
      if 0x200 ≤ a ∧ a < 0x222 then
        (if a % 2 = 0 then 0x22 else (a + 1) % 256)
      else 0 }
/-- Modelled from the spec: the table of documented instruction patterns in
section 4.2 (00E0, 00EE, 1NNN, 2NNN, 3XNN, 4XNN, 5XY0, 6XNN, 7XNN,
8XY0..8XY7 and 8XYE, 9XY0, ANNN, BNNN, CXNN, DXYN, EX9E, EXA1, FX07, FX0A,
FX15, FX18, FX1E, FX29, FX33, FX55, FX65). This definition follows the
words of the spec, for comparison against the code. -/
def documentedOpcode (op : Nat) : Bool :=
  let hi := op / 4096
  let nn := op % 256
  let n := op % 16
  if hi = 0 then op == 0x00E0 || op == 0x00EE
  else if hi = 1 || hi = 2 || hi = 3 || hi = 4 || hi = 6 || hi = 7 ||
          hi = 10 || hi = 11 || hi = 12 || hi = 13 then true
  else if hi = 5 || hi = 9 then n == 0
  else if hi = 8 then n ≤ 7 || n == 14
  else if hi = 14 then nn == 0x9E || nn == 0xA1
  else nn == 0x07 || nn == 0x0A || nn == 0x15 || nn == 0x18 ||
       nn == 0x1E || nn == 0x29 || nn == 0x33 || nn == 0x55 || nn == 0x65
/-- The undocumented opcodes on which the code does raise an
UnknownInstruction fault: everything outside the spec table except the
three families the code treats differently (opcode 0x0000, and the 5XYk
and 9XYk patterns with k not 0). -/
def unmatchedFaulting (op : Nat) : Bool :=
  !documentedOpcode op && op != 0 && op / 4096 != 5 && op / 4096 != 9
/-- Concrete machine for the C2 witness, family 0x0: opcode 0x00FF. -/
def c2stateA : Chip8 :=
  { zeroState with memory := fun i => if i = 0x201 then 0xFF else 0 }
/-- Concrete machine for the C2 witness, pattern 5XYk: opcode 0x5001. -/
def c2stateB : Chip8 :=
  { zeroState with
    memory := fun i => if i = 0x200 then 0x50 else if i = 0x201 then 0x01 else 0 }

/-- Sound-timer projection of a cycle result. -/
def okSound : Except Fault Chip8 → Option Nat
  | .ok s => some s.sound_timer
  | .error _ => none

/-- Concrete machine for C3: sound timer 1 and all-zero memory, so every
cycle executes the 0x0000 no-op. -/
def c3state : Chip8 := { zeroState with sound_timer := 1 }

/-- The fetch-execute result of the first cycle on c3state, before the
timer epilogue. -/
def c3execResult : Chip8 := { c3state with opcode := 0, program_counter := 0x202 }

/-- Concrete machine for the C5 counterexample: V15 = 3 and opcode 0x80F6
(8XY6 with X = 0 and Y = 15, shifting V15 right into V0) at the entry
point. -/
def c5state : Chip8 :=
  { zeroState with
    registers := fun j => if j = 15 then 3 else 0,
    memory := fun i => if i = 0x200 then 0x80 else if i = 0x201 then 0xF6 else 0 }

/-- Concrete machine for the C5 witness, 8XY6: V1 = 3, opcode 0x8016. -/
def c5stateA : Chip8 :=
  { zeroState with
    registers := fun j => if j = 1 then 3 else 0,
    memory := fun i => if i = 0x200 then 0x80 else if i = 0x201 then 0x16 else 0 }

/-- Concrete machine for the C5 witness, 8XYE: V1 = 0x81, opcode 0x801E. -/
def c5stateB : Chip8 :=
  { zeroState with
    registers := fun j => if j = 1 then 0x81 else 0,
    memory := fun i => if i = 0x200 then 0x80 else if i = 0x201 then 0x1E else 0 }

/-- Concrete machine for C6: opcode 0xF20A (wait for key into V2) at the
entry point, no key latched. -/
def c6state : Chip8 :=
  { zeroState with
    memory := fun i => if i = 0x200 then 0xF2 else if i = 0x201 then 0x0A else 0 }

/-- Concrete machine for C6 with a latched key 7. -/
def c6stateB : Chip8 := { c6state with last_key := some 7 }

/-- Concrete machine for C9: opcode 0xF00A (wait for key into V0) at the
entry point. -/
def c9state : Chip8 :=
  { zeroState with
    memory := fun i => if i = 0x200 then 0xF0 else if i = 0x201 then 0x0A else 0 }

/-- Concrete machine for the C8 witness: FX55 with X = 3 at 0x200, FX65
with X = 3 at 0x202, index 0x300, registers j holding j + 10. -/
def c8state : Chip8 :=
  { zeroState with
    registers := fun j => j + 10,
    index := 0x300,
    memory := fun i =>
      if i = 0x200 then 0xF3 else if i = 0x201 then 0x55 else
      if i = 0x202 then 0xF3 else if i = 0x203 then 0x65 else 0 }

/-- The state components a DXYN blit never writes: everything except the
framebuffer and the registers. -/
def untouchedDraw (s t : Chip8) : Prop :=
  t.memory = s.memory ∧ t.program_counter = s.program_counter ∧
  t.index = s.index ∧ t.stack = s.stack ∧ t.stack_pointer = s.stack_pointer ∧
  t.keys = s.keys ∧ t.opcode = s.opcode ∧ t.delay_timer = s.delay_timer ∧
  t.sound_timer = s.sound_timer ∧ t.beep_flag = s.beep_flag ∧
  t.last_key = s.last_key ∧ t.redraw_flag = s.redraw_flag ∧
  t.random = s.random

/-- Concrete machine for the C10 witness: DXYN at 0x200 with X = 0, Y = 1,
N = 1, V0 = 60, V1 = 0, index 0x300, sprite byte 0x80: the single set bit
lands at flat index 60, in bounds. -/
def c10state : Chip8 :=
  { zeroState with
    registers := fun j => if j = 0 then 60 else 0,
    index := 0x300,
    memory := fun i =>
      if i = 0x200 then 0xD0 else if i = 0x201 then 0x11 else
      if i = 0x300 then 0x80 else 0 }

/-- Concrete machine for the C7 witness: opcode 0xD011 at 0x200 and again
at 0x202, V0 = 10, V1 = 2, index 0x300, sprite byte 0xFF. -/
def c7state : Chip8 :=
  { zeroState with
    registers := fun j => if j = 0 then 10 else if j = 1 then 2 else 0,
    index := 0x300,
    memory := fun i =>
      if i = 0x200 then 0xD0 else if i = 0x201 then 0x11 else
      if i = 0x202 then 0xD0 else if i = 0x203 then 0x11 else
      if i = 0x300 then 0xFF else 0 }

/-! Arithmetic forms of the bit masks used by the decoder. -/

theorem and_shifted_mask (x k n : Nat) :
    x &&& (2 ^ n - 1) * 2 ^ k = x / 2 ^ k % 2 ^ n * 2 ^ k := by
  apply Nat.eq_of_testBit_eq
  intro j
  rcases Nat.lt_or_ge j k with hj | hj
  · rw [Nat.testBit_and]
    rw [show (2 ^ n - 1) * 2 ^ k = 2 ^ k * (2 ^ n - 1) by ring]
    rw [show x / 2 ^ k % 2 ^ n * 2 ^ k = 2 ^ k * (x / 2 ^ k % 2 ^ n) by ring]
    rw [Nat.testBit_mul_pow_two, Nat.testBit_mul_pow_two]
    simp [Nat.not_le.mpr hj]
  · rw [Nat.testBit_and]
    rw [show (2 ^ n - 1) * 2 ^ k = 2 ^ k * (2 ^ n - 1) by ring]
    rw [show x / 2 ^ k % 2 ^ n * 2 ^ k = 2 ^ k * (x / 2 ^ k % 2 ^ n) by ring]
    rw [Nat.testBit_mul_pow_two, Nat.testBit_mul_pow_two]
    simp only [Nat.testBit_mod_two_pow, Nat.testBit_two_pow_sub_one, hj, decide_True,
      Bool.true_and, ge_iff_le]
    rw [← Nat.shiftRight_eq_div_pow, Nat.testBit_shiftRight]
    rw [Nat.add_sub_cancel' hj]
    rw [Bool.and_comm]

theorem and_F000 (x : Nat) : x &&& 0xF000 = x / 4096 % 16 * 4096 := by
  have h := and_shifted_mask x 12 4
  norm_num at h
  exact h

theorem and_0FFF (x : Nat) : x &&& 0x0FFF = x % 4096 := by
  have h := Nat.and_pow_two_sub_one_eq_mod x 12
  norm_num at h
  exact h

theorem and_00FF (x : Nat) : x &&& 0x00FF = x % 256 := by
  have h := Nat.and_pow_two_sub_one_eq_mod x 8
  norm_num at h
  exact h

theorem and_000F (x : Nat) : x &&& 0x000F = x % 16 := by
  have h := Nat.and_pow_two_sub_one_eq_mod x 4
  norm_num at h
  exact h

theorem and_0F00_shr (x : Nat) : (x &&& 0x0F00) >>> 8 = x / 256 % 16 := by
  have h := and_shifted_mask x 8 4
  norm_num at h
  rw [h, Nat.shiftRight_eq_div_pow]
  norm_num

theorem and_00F0_shr (x : Nat) : (x &&& 0x00F0) >>> 4 = x / 16 % 16 := by
  have h := and_shifted_mask x 4 4
  norm_num at h
  rw [h, Nat.shiftRight_eq_div_pow]
  norm_num

theorem and_0080 (x : Nat) : x &&& 0x80 = x / 128 % 2 * 128 := by
  have h := and_shifted_mask x 7 1
  norm_num at h
  exact h

theorem and_0001 (x : Nat) : x &&& 0x01 = x % 2 :=
  Nat.and_one_is_mod x

theorem fetch_or (h l : Nat) (hl : l < 256) : (h <<< 8) ||| l = h * 256 + l := by
  have h1 : h <<< 8 = 2 ^ 8 * h := by
    rw [Nat.shiftLeft_eq]; ring
  rw [h1, ← Nat.mul_add_lt_is_or hl]
  ring

/-- Unfolding of the fetch when the two opcode bytes are in range. -/
theorem fetchExec_eq (s : Chip8) (hpc : s.program_counter + 1 < 4096) :
    fetchExec s =
      execOpcode
        { s with opcode :=
            (s.memory s.program_counter <<< 8) |||
              s.memory (s.program_counter + 1) }
        ((s.memory s.program_counter <<< 8) |||
          s.memory (s.program_counter + 1)) := by
  unfold fetchExec memRead
  rw [if_pos (by omega : s.program_counter < 4096), if_pos hpc]

/-! Projection lemmas for the cycle epilogue and register writes. -/

theorem tick_registers (s : Chip8) : (tick s).registers = s.registers := by
  unfold tick
  rcases Nat.eq_zero_or_pos s.delay_timer with h1 | h1 <;>
    rcases Nat.eq_zero_or_pos s.sound_timer with h2 | h2 <;>
      rcases eq_or_ne s.sound_timer 1 with h3 | h3 <;>
        simp [h1, h2, h3]

theorem tick_program_counter (s : Chip8) :
    (tick s).program_counter = s.program_counter := by
  unfold tick
  rcases Nat.eq_zero_or_pos s.delay_timer with h1 | h1 <;>
    rcases Nat.eq_zero_or_pos s.sound_timer with h2 | h2 <;>
      rcases eq_or_ne s.sound_timer 1 with h3 | h3 <;>
        simp [h1, h2, h3]

theorem tick_memory (s : Chip8) : (tick s).memory = s.memory := by
  unfold tick
  rcases Nat.eq_zero_or_pos s.delay_timer with h1 | h1 <;>
    rcases Nat.eq_zero_or_pos s.sound_timer with h2 | h2 <;>
      rcases eq_or_ne s.sound_timer 1 with h3 | h3 <;>
        simp [h1, h2, h3]

theorem tick_framebuffer (s : Chip8) : (tick s).framebuffer = s.framebuffer := by
  unfold tick
  rcases Nat.eq_zero_or_pos s.delay_timer with h1 | h1 <;>
    rcases Nat.eq_zero_or_pos s.sound_timer with h2 | h2 <;>
      rcases eq_or_ne s.sound_timer 1 with h3 | h3 <;>
        simp [h1, h2, h3]

theorem tick_stack (s : Chip8) : (tick s).stack = s.stack := by
  unfold tick
  rcases Nat.eq_zero_or_pos s.delay_timer with h1 | h1 <;>
    rcases Nat.eq_zero_or_pos s.sound_timer with h2 | h2 <;>
      rcases eq_or_ne s.sound_timer 1 with h3 | h3 <;>
        simp [h1, h2, h3]

theorem tick_stack_pointer (s : Chip8) :
    (tick s).stack_pointer = s.stack_pointer := by
  unfold tick
  rcases Nat.eq_zero_or_pos s.delay_timer with h1 | h1 <;>
    rcases Nat.eq_zero_or_pos s.sound_timer with h2 | h2 <;>
      rcases eq_or_ne s.sound_timer 1 with h3 | h3 <;>
        simp [h1, h2, h3]

theorem tick_index (s : Chip8) : (tick s).index = s.index := by
  unfold tick
  rcases Nat.eq_zero_or_pos s.delay_timer with h1 | h1 <;>
    rcases Nat.eq_zero_or_pos s.sound_timer with h2 | h2 <;>
      rcases eq_or_ne s.sound_timer 1 with h3 | h3 <;>
        simp [h1, h2, h3]

theorem tick_keys (s : Chip8) : (tick s).keys = s.keys := by
  unfold tick
  rcases Nat.eq_zero_or_pos s.delay_timer with h1 | h1 <;>
    rcases Nat.eq_zero_or_pos s.sound_timer with h2 | h2 <;>
      rcases eq_or_ne s.sound_timer 1 with h3 | h3 <;>
        simp [h1, h2, h3]

theorem tick_last_key (s : Chip8) : (tick s).last_key = none := by
  unfold tick
  rcases Nat.eq_zero_or_pos s.delay_timer with h1 | h1 <;>
    rcases Nat.eq_zero_or_pos s.sound_timer with h2 | h2 <;>
      rcases eq_or_ne s.sound_timer 1 with h3 | h3 <;>
        simp [h1, h2, h3]

theorem tick_delay_timer (s : Chip8) :
    (tick s).delay_timer = s.delay_timer - 1 := by
  unfold tick
  rcases Nat.eq_zero_or_pos s.delay_timer with h1 | h1 <;>
    rcases Nat.eq_zero_or_pos s.sound_timer with h2 | h2 <;>
      rcases eq_or_ne s.sound_timer 1 with h3 | h3 <;>
        simp [h1, h2, h3]

theorem tick_sound_timer (s : Chip8) :
    (tick s).sound_timer = s.sound_timer - 1 := by
  unfold tick
  rcases Nat.eq_zero_or_pos s.delay_timer with h1 | h1 <;>
    rcases Nat.eq_zero_or_pos s.sound_timer with h2 | h2 <;>
      rcases eq_or_ne s.sound_timer 1 with h3 | h3 <;>
        simp [h1, h2, h3]

theorem tick_beep_flag (s : Chip8) :
    (tick s).beep_flag = (s.beep_flag || decide (s.sound_timer = 1)) := by
  unfold tick
  rcases Nat.eq_zero_or_pos s.delay_timer with h1 | h1 <;>
    rcases Nat.eq_zero_or_pos s.sound_timer with h2 | h2 <;>
      rcases eq_or_ne s.sound_timer 1 with h3 | h3 <;>
        simp [h1, h2, h3]

theorem setReg_at (s : Chip8) (i v : Nat) : (setReg s i v).registers i = v := by
  simp [setReg]

theorem setReg_ne (s : Chip8) (i v j : Nat) (h : j ≠ i) :
    (setReg s i v).registers j = s.registers j := by
  simp [setReg, h]

/-- C4: for every register index X in the half-open range 0..15 and every
immediate NN, executing 7XNN adds NN to VX with unsigned 8-bit wraparound,
leaves the flag register V15 unchanged and every other register unchanged,
and advances the program counter by 2. -/
theorem c4_add_no_flag (s : Chip8) (x nn : Nat) (hx : x < 15) (hnn : nn < 256)
    (hpc : s.program_counter + 1 < 4096)
    (hhi : s.memory s.program_counter = 0x70 + x)
    (hlo : s.memory (s.program_counter + 1) = nn) :
    ∃ t, emulate_cycle s = .ok t ∧
      t.registers x = (s.registers x + nn) % 256 ∧
      t.registers 15 = s.registers 15 ∧
      (∀ j, j ≠ x → t.registers j = s.registers j) ∧
      t.program_counter = (s.program_counter + 2) % 65536 := by
  have hop : (s.memory s.program_counter <<< 8) ||| s.memory (s.program_counter + 1)
      = 0x7000 + x * 256 + nn := by
    rw [hhi, hlo, fetch_or _ _ hnn]; ring
  have hmask : (0x7000 + x * 256 + nn) &&& 0xF000 = 0x7000 := by
    rw [and_F000]; omega
  have hX : ((0x7000 + x * 256 + nn) &&& 0x0F00) >>> 8 = x := by
    rw [and_0F00_shr]; omega
  have hNN : (0x7000 + x * 256 + nn) &&& 0x00FF = nn := by
    rw [and_00FF]; omega
  have hcycle : emulate_cycle s = .ok (tick
      { setReg { s with opcode := 0x7000 + x * 256 + nn } x
          ((s.registers x + nn) % 256) with
        program_counter := (s.program_counter + 2) % 65536 }) := by
    unfold emulate_cycle
    rw [fetchExec_eq s hpc, hop]
    unfold execOpcode
    rw [hmask, hX, hNN]
  refine ⟨_, hcycle, ?_, ?_, ?_, ?_⟩
  · rw [tick_registers]
    simp [setReg]
  · rw [tick_registers]
    simp [setReg]
    omega
  · intro j hj
    rw [tick_registers]
    simp [setReg, hj]
  · rw [tick_program_counter]

theorem c4_add_no_flag_witness :
    okReg 1 (emulate_cycle c4state) = some 5 ∧
    okReg 15 (emulate_cycle c4state) = some 0 ∧
    okPC (emulate_cycle c4state) = some 0x202 := by
  obtain ⟨t, ht, h1, h2, h3, h4⟩ :=
    c4_add_no_flag c4state 1 5 (by norm_num) (by norm_num)
      (by norm_num [c4state, zeroState])
      (by norm_num [c4state, zeroState])
      (by norm_num [c4state, zeroState])
  rw [ht]
  simp only [okReg, okPC]
  rw [h1, h2, h4]
  norm_num [c4state, zeroState]

/-- C1: the claim says 16 consecutive 2NNN calls succeed on an empty stack
and the 17th faults with StackOverflow. The code guards the push with
`stack_pointer >= 15` although the stack array has 16 slots, so only 15
consecutive calls succeed and the 16th already faults with StackOverflow:
after 15 calls the stack pointer is 15 and the program counter sits at the
16th call, and the 16th cycle faults. -/
theorem c1_stack_overflow_off_by_one :
    okSP (stepN c1state 15) = some 15 ∧
    okPC (stepN c1state 15) = some 0x21E ∧
    faultOf (stepN c1state 16) = some Fault.StackOverflow := by
  refine ⟨by decide, by decide, by decide⟩

theorem execOpcode_unmatched (s : Chip8) (op : Nat) (hop : op < 65536)
    (hbad : unmatchedFaulting op = true) :
    execOpcode s op = .error (.UnknownInstruction op) := by
  have hparts : ((documentedOpcode op = false ∧ ¬op = 0) ∧ ¬op / 4096 = 5) ∧
      ¬op / 4096 = 9 := by
    simpa [unmatchedFaulting, Bool.and_eq_true] using hbad
  obtain ⟨⟨⟨hdoc, hne0⟩, hne5⟩, hne9⟩ := hparts
  have hmaskF : op &&& 0xF000 = op / 4096 * 4096 := by
    rw [and_F000]; omega
  unfold execOpcode
  split
  · -- family 0x0
    rename_i heq
    have hhi : op / 4096 = 0 := by omega
    split
    · rename_i heq2
      rw [and_0FFF] at heq2
      exact absurd (by omega) hne0
    · rename_i heq2
      rw [and_0FFF] at heq2
      have h224 : op = 224 := by omega
      subst h224
      simp [documentedOpcode] at hdoc
    · rename_i heq2
      rw [and_0FFF] at heq2
      have h238 : op = 238 := by omega
      subst h238
      simp [documentedOpcode] at hdoc
    · rfl
  · rename_i heq
    exfalso
    have hhi : op / 4096 = 1 := by omega
    simp [documentedOpcode, hhi] at hdoc
  · rename_i heq
    exfalso
    have hhi : op / 4096 = 2 := by omega
    simp [documentedOpcode, hhi] at hdoc
  · rename_i heq
    exfalso
    have hhi : op / 4096 = 3 := by omega
    simp [documentedOpcode, hhi] at hdoc
  · rename_i heq
    exfalso
    have hhi : op / 4096 = 4 := by omega
    simp [documentedOpcode, hhi] at hdoc
  · rename_i heq
    exact absurd (by omega) hne5
  · rename_i heq
    exfalso
    have hhi : op / 4096 = 6 := by omega
    simp [documentedOpcode, hhi] at hdoc
  · rename_i heq
    exfalso
    have hhi : op / 4096 = 7 := by omega
    simp [documentedOpcode, hhi] at hdoc
  · -- family 0x8
    rename_i heq
    have hhi : op / 4096 = 8 := by omega
    dsimp only
    split
    · rename_i s2 heq2
      exfalso
      split at heq2
      all_goals rename_i heq3
      all_goals rw [and_000F] at heq3
      all_goals simp_all [documentedOpcode]
    · rename_i e heq2
      split at heq2
      all_goals rename_i heq3
      all_goals rw [and_000F] at heq3
      all_goals simp_all [documentedOpcode]
  · rename_i heq
    exact absurd (by omega) hne9
  · rename_i heq
    exfalso
    have hhi : op / 4096 = 10 := by omega
    simp [documentedOpcode, hhi] at hdoc
  · rename_i heq
    exfalso
    have hhi : op / 4096 = 11 := by omega
    simp [documentedOpcode, hhi] at hdoc
  · rename_i heq
    exfalso
    have hhi : op / 4096 = 12 := by omega
    simp [documentedOpcode, hhi] at hdoc
  · rename_i heq
    exfalso
    have hhi : op / 4096 = 13 := by omega
    simp [documentedOpcode, hhi] at hdoc
  · -- family 0xE
    rename_i heq
    have hhi : op / 4096 = 14 := by omega
    dsimp only
    split
    · rename_i heq2
      exfalso
      rw [and_00FF] at heq2
      simp_all [documentedOpcode]
    · rename_i heq2
      exfalso
      rw [and_00FF] at heq2
      simp_all [documentedOpcode]
    · rfl
  · -- family 0xF
    rename_i heq
    have hhi : op / 4096 = 15 := by omega
    dsimp only
    split
    all_goals try rfl
    all_goals rename_i heq2
    all_goals exfalso
    all_goals rw [and_00FF] at heq2
    all_goals simp_all [documentedOpcode]
  · rename_i heq
    rfl

/-- Step-level wrapper: a successful dispatch makes the cycle succeed with
the timer epilogue applied. -/
theorem emulate_cycle_ok (s t : Chip8)
    (hpc : s.program_counter + 1 < 4096)
    (hexec : execOpcode
      { s with opcode := (s.memory s.program_counter <<< 8) |||
          s.memory (s.program_counter + 1) }
      ((s.memory s.program_counter <<< 8) |||
        s.memory (s.program_counter + 1)) = .ok t) :
    emulate_cycle s = .ok (tick t) := by
  unfold emulate_cycle
  rw [fetchExec_eq s hpc, hexec]

/-- Step-level wrapper: a faulting dispatch makes the cycle fault. -/
theorem emulate_cycle_error (s : Chip8) (e : Fault)
    (hpc : s.program_counter + 1 < 4096)
    (hexec : execOpcode
      { s with opcode := (s.memory s.program_counter <<< 8) |||
          s.memory (s.program_counter + 1) }
      ((s.memory s.program_counter <<< 8) |||
        s.memory (s.program_counter + 1)) = .error e) :
    emulate_cycle s = .error e := by
  unfold emulate_cycle
  rw [fetchExec_eq s hpc, hexec]

theorem execOpcode_zero (s : Chip8) :
    execOpcode s 0 =
      .ok { s with program_counter := (s.program_counter + 2) % 65536 } := rfl

theorem execOpcode_5XYk (s : Chip8) (x y k : Nat) (hx : x < 16) (hy : y < 16)
    (hk2 : k < 16) :
    execOpcode s (0x5000 + x * 256 + y * 16 + k) =
      if s.registers x = s.registers y then
        .ok { s with program_counter := (s.program_counter + 4) % 65536 }
      else
        .ok { s with program_counter := (s.program_counter + 2) % 65536 } := by
  have hm : (0x5000 + x * 256 + y * 16 + k) &&& 0xF000 = 0x5000 := by
    rw [and_F000]; omega
  have hX : ((0x5000 + x * 256 + y * 16 + k) &&& 0x0F00) >>> 8 = x := by
    rw [and_0F00_shr]; omega
  have hY : ((0x5000 + x * 256 + y * 16 + k) &&& 0x00F0) >>> 4 = y := by
    rw [and_00F0_shr]; omega
  unfold execOpcode
  rw [hm, hX, hY]

theorem execOpcode_9XYk (s : Chip8) (x y k : Nat) (hx : x < 16) (hy : y < 16)
    (hk2 : k < 16) :
    execOpcode s (0x9000 + x * 256 + y * 16 + k) =
      if s.registers x = s.registers y then
        .ok { s with program_counter := (s.program_counter + 2) % 65536 }
      else
        .ok { s with program_counter := (s.program_counter + 4) % 65536 } := by
  have hm : (0x9000 + x * 256 + y * 16 + k) &&& 0xF000 = 0x9000 := by
    rw [and_F000]; omega
  have hX : ((0x9000 + x * 256 + y * 16 + k) &&& 0x0F00) >>> 8 = x := by
    rw [and_0F00_shr]; omega
  have hY : ((0x9000 + x * 256 + y * 16 + k) &&& 0x00F0) >>> 4 = y := by
    rw [and_00F0_shr]; omega
  unfold execOpcode
  rw [hm, hX, hY]
  split
  all_goals rename_i heq
  all_goals try (exact absurd heq (by decide))
  · rcases eq_or_ne (s.registers x) (s.registers y) with h | h
    · rw [if_neg (not_not_intro h), if_pos h]
    · rw [if_pos h, if_neg h]
  · exact absurd rfl (by assumption)

/-- C2 counterexample: opcode 0x0000 is not one of the documented
instruction patterns, yet the step does not fault with UnknownInstruction:
on the all-zero machine it succeeds and advances the program counter by
2. -/
theorem c2_counterexample :
    documentedOpcode 0 = false ∧
    faultOf (emulate_cycle zeroState) = none ∧
    okPC (emulate_cycle zeroState) = some 0x202 := by
  refine ⟨rfl, by decide, by decide⟩

/-- C2 (amended): every 16-bit opcode outside the 35 documented patterns
makes the step fail with an UnknownInstruction fault, with exactly these
exceptions in the code: opcode 0x0000 is executed as a no-op that advances
the program counter by 2, and the patterns 5XYk and 9XYk with k not 0 are
executed as the corresponding register-comparison skips 5XY0 and 9XY0. -/
theorem c2_amended_unknown_instruction :
    (∀ (s : Chip8) (op : Nat), op < 65536 → unmatchedFaulting op = true →
      s.program_counter + 1 < 4096 →
      s.memory s.program_counter = op / 256 →
      s.memory (s.program_counter + 1) = op % 256 →
      emulate_cycle s = .error (.UnknownInstruction op)) ∧
    (∀ s : Chip8, s.program_counter + 1 < 4096 →
      s.memory s.program_counter = 0 →
      s.memory (s.program_counter + 1) = 0 →
      ∃ t, emulate_cycle s = .ok t ∧
        t.program_counter = (s.program_counter + 2) % 65536 ∧
        t.registers = s.registers ∧ t.framebuffer = s.framebuffer ∧
        t.stack_pointer = s.stack_pointer) ∧
    (∀ (s : Chip8) (x y k : Nat), x < 16 → y < 16 → 0 < k → k < 16 →
      s.program_counter + 1 < 4096 →
      s.memory s.program_counter = 0x50 + x →
      s.memory (s.program_counter + 1) = y * 16 + k →
      ∃ t, emulate_cycle s = .ok t ∧
        t.program_counter = (s.program_counter +
          (if s.registers x = s.registers y then 4 else 2)) % 65536 ∧
        t.registers = s.registers) ∧
    (∀ (s : Chip8) (x y k : Nat), x < 16 → y < 16 → 0 < k → k < 16 →
      s.program_counter + 1 < 4096 →
      s.memory s.program_counter = 0x90 + x →
      s.memory (s.program_counter + 1) = y * 16 + k →
      ∃ t, emulate_cycle s = .ok t ∧
        t.program_counter = (s.program_counter +
          (if s.registers x = s.registers y then 2 else 4)) % 65536 ∧
        t.registers = s.registers) := by
  refine ⟨?_, ?_, ?_, ?_⟩
  · intro s op hop hbad hpc hhi hlo
    have hfetch : (s.memory s.program_counter <<< 8) |||
        s.memory (s.program_counter + 1) = op := by
      rw [hhi, hlo, fetch_or _ _ (by omega)]
      omega
    apply emulate_cycle_error s _ hpc
    rw [hfetch]
    exact execOpcode_unmatched _ op hop hbad
  · intro s hpc hhi hlo
    have hfetch : (s.memory s.program_counter <<< 8) |||
        s.memory (s.program_counter + 1) = 0 := by
      rw [hhi, hlo, fetch_or _ _ (by omega)]
    refine ⟨_, emulate_cycle_ok s _ hpc (by rw [hfetch]; exact execOpcode_zero _), ?_, ?_, ?_, ?_⟩
    · rw [tick_program_counter]
    · rw [tick_registers]
    · rw [tick_framebuffer]
    · rw [tick_stack_pointer]
  · intro s x y k hx hy hk1 hk2 hpc hhi hlo
    have hfetch : (s.memory s.program_counter <<< 8) |||
        s.memory (s.program_counter + 1) = 0x5000 + x * 256 + y * 16 + k := by
      rw [hhi, hlo, fetch_or _ _ (by omega)]
      ring
    rcases eq_or_ne (s.registers x) (s.registers y) with h | h
    · refine ⟨_, emulate_cycle_ok s _ hpc
        (by rw [hfetch, execOpcode_5XYk _ x y k hx hy hk2, if_pos h]), ?_, ?_⟩
      · rw [tick_program_counter, if_pos h]
      · rw [tick_registers]
    · refine ⟨_, emulate_cycle_ok s _ hpc
        (by rw [hfetch, execOpcode_5XYk _ x y k hx hy hk2, if_neg h]), ?_, ?_⟩
      · rw [tick_program_counter, if_neg h]
      · rw [tick_registers]
  · intro s x y k hx hy hk1 hk2 hpc hhi hlo
    have hfetch : (s.memory s.program_counter <<< 8) |||
        s.memory (s.program_counter + 1) = 0x9000 + x * 256 + y * 16 + k := by
      rw [hhi, hlo, fetch_or _ _ (by omega)]
      ring
    rcases eq_or_ne (s.registers x) (s.registers y) with h | h
    · refine ⟨_, emulate_cycle_ok s _ hpc
        (by rw [hfetch, execOpcode_9XYk _ x y k hx hy hk2, if_pos h]), ?_, ?_⟩
      · rw [tick_program_counter, if_pos h]
      · rw [tick_registers]
    · refine ⟨_, emulate_cycle_ok s _ hpc
        (by rw [hfetch, execOpcode_9XYk _ x y k hx hy hk2, if_neg h]), ?_, ?_⟩
      · rw [tick_program_counter, if_neg h]
      · rw [tick_registers]

theorem c2_amended_unknown_instruction_witness :
    faultOf (emulate_cycle c2stateA) = some (.UnknownInstruction 0xFF) ∧
    okPC (emulate_cycle c2stateB) = some 0x204 := by
  constructor
  · have h := c2_amended_unknown_instruction.1 c2stateA 0xFF (by norm_num)
      (by decide) (by norm_num [c2stateA, zeroState])
      (by norm_num [c2stateA, zeroState]) (by norm_num [c2stateA, zeroState])
    rw [h]
    rfl
  · obtain ⟨t, ht, hp, hr⟩ := c2_amended_unknown_instruction.2.2.1 c2stateB
      0 0 1 (by norm_num) (by norm_num) (by norm_num) (by norm_num)
      (by norm_num [c2stateB, zeroState]) (by norm_num [c2stateB, zeroState])
      (by norm_num [c2stateB, zeroState])
    rw [ht]
    simp only [okPC, hp]
    norm_num [c2stateB, zeroState]

/-! Beep-flag invariance of the dispatch: no opcode arm writes the beep
flag; only the timer epilogue does. -/

theorem memWrite_beep (s : Chip8) (i v : Nat) (t : Chip8)
    (h : memWrite s i v = .ok t) : t.beep_flag = s.beep_flag := by
  unfold memWrite at h
  split at h
  · injection h with h2
    subst h2
    rfl
  · simp at h

theorem drawBit_beep (s : Chip8) (idx : Nat) (t : Chip8)
    (h : drawBit s idx = .ok t) : t.beep_flag = s.beep_flag := by
  unfold drawBit fbRead fbWrite at h
  split at h
  · split at h <;> split at h <;>
      first
        | (injection h with h2; subst h2; rfl)
        | simp at h
  · simp at h

theorem drawBits_beep (pixel x rowY : Nat) (L : List Nat) (s t : Chip8)
    (h : drawBits pixel x rowY L s = .ok t) : t.beep_flag = s.beep_flag := by
  induction L generalizing s with
  | nil =>
    unfold drawBits at h
    injection h with h2
    subst h2
    rfl
  | cons xl L2 ih =>
    unfold drawBits at h
    split at h
    · split at h
      · rename_i s1 heq
        exact (ih _ h).trans (drawBit_beep _ _ _ heq)
      · simp at h
    · exact ih _ h

theorem drawSprite_beep (x y : Nat) (R : List Nat) (s t : Chip8)
    (h : drawSprite x y R s = .ok t) : t.beep_flag = s.beep_flag := by
  induction R generalizing s with
  | nil =>
    unfold drawSprite at h
    injection h with h2
    subst h2
    rfl
  | cons yl R2 ih =>
    unfold drawSprite at h
    split at h
    · split at h
      · rename_i s1 heq
        exact (ih _ h).trans (drawBits_beep _ _ _ _ _ _ heq)
      · simp at h
    · simp at h

theorem storeRegs_beep (L : List Nat) (s t : Chip8)
    (h : storeRegs L s = .ok t) : t.beep_flag = s.beep_flag := by
  induction L generalizing s with
  | nil =>
    unfold storeRegs at h
    injection h with h2
    subst h2
    rfl
  | cons i L2 ih =>
    unfold storeRegs at h
    split at h
    · rename_i s1 heq
      have h1 := ih _ h
      have h2 := memWrite_beep _ _ _ _ heq
      exact h1.trans h2
    · simp at h

theorem loadRegs_beep (L : List Nat) (s t : Chip8)
    (h : loadRegs L s = .ok t) : t.beep_flag = s.beep_flag := by
  induction L generalizing s with
  | nil =>
    unfold loadRegs at h
    injection h with h2
    subst h2
    rfl
  | cons i L2 ih =>
    unfold loadRegs at h
    split at h
    · rename_i v heq
      have h1 := ih _ h
      exact h1
    · simp at h

theorem execOpcode_beep (s : Chip8) (op : Nat) (t : Chip8)
    (h : execOpcode s op = .ok t) : t.beep_flag = s.beep_flag := by
  unfold execOpcode at h
  split at h
  · -- family 0x0
    split at h
    · injection h with h2
      subst h2
      rfl
    · injection h with h2
      subst h2
      rfl
    · split at h
      · simp at h
      · injection h with h2
        subst h2
        rfl
    · simp at h
  · injection h with h2
    subst h2
    rfl
  · split at h
    · simp at h
    · injection h with h2
      subst h2
      rfl
  · split at h <;> (injection h with h2; subst h2; rfl)
  · split at h <;> (injection h with h2; subst h2; rfl)
  · split at h <;> (injection h with h2; subst h2; rfl)
  · injection h with h2
    subst h2
    rfl
  · injection h with h2
    subst h2
    rfl
  · -- family 0x8
    dsimp only at h
    split at h
    · rename_i s2 heq
      injection h with h2
      subst h2
      split at heq <;>
        first
          | (injection heq with h3; subst h3; rfl)
          | simp at heq
    · simp at h
  · split at h <;> (injection h with h2; subst h2; rfl)
  · injection h with h2
    subst h2
    rfl
  · injection h with h2
    subst h2
    rfl
  · injection h with h2
    subst h2
    rfl
  · -- DXYN
    dsimp only at h
    split at h
    · rename_i s2 heq
      injection h with h2
      subst h2
      have e := drawSprite_beep _ _ _ _ _ heq
      exact e
    · simp at h
  · -- family 0xE
    dsimp only at h
    split at h
    · split at h <;> (injection h with h2; subst h2; rfl)
    · split at h <;> (injection h with h2; subst h2; rfl)
    · simp at h
  · -- family 0xF
    dsimp only at h
    split at h
    · injection h with h2
      subst h2
      rfl
    · split at h <;> (injection h with h2; subst h2; rfl)
    · injection h with h2
      subst h2
      rfl
    · injection h with h2
      subst h2
      rfl
    · injection h with h2
      subst h2
      rfl
    · injection h with h2
      subst h2
      rfl
    · -- FX33
      split at h
      · rename_i s1 heq1
        split at h
        · rename_i s2 heq2
          split at h
          · rename_i s3 heq3
            injection h with h2
            subst h2
            have e1 := memWrite_beep _ _ _ _ heq1
            have e2 := memWrite_beep _ _ _ _ heq2
            have e3 := memWrite_beep _ _ _ _ heq3
            exact (e3.trans e2).trans e1
          · simp at h
        · simp at h
      · simp at h
    · -- FX55
      split at h
      · rename_i s1 heq
        injection h with h2
        subst h2
        have e := storeRegs_beep _ _ _ heq
        exact e
      · simp at h
    · -- FX65
      split at h
      · rename_i s1 heq
        injection h with h2
        subst h2
        have e := loadRegs_beep _ _ _ heq
        exact e
      · simp at h
    · simp at h
  · simp at h

theorem fetchExec_beep (s t : Chip8) (h : fetchExec s = .ok t) :
    t.beep_flag = s.beep_flag := by
  by_cases hpc : s.program_counter + 1 < 4096
  · rw [fetchExec_eq s hpc] at h
    have e := execOpcode_beep _ _ _ h
    exact e
  · unfold fetchExec memRead at h
    rcases Nat.lt_or_ge s.program_counter 4096 with h1 | h1
    · rw [if_pos h1, if_neg (by omega)] at h
      simp at h
    · rw [if_neg (by omega)] at h
      simp at h

/-- C3 counterexample: with sound timer 1 and no-op instructions, the first
cycle decrements the sound timer from 1 to 0 and raises the beep flag; the
second cycle does not decrement it from 1 to 0 (the timer is already 0 when
it starts), yet the beep flag is still true after the second cycle, because
the code never clears the flag. -/
theorem c3_counterexample :
    okBeep (stepN c3state 1) = some true ∧
    okSound (stepN c3state 1) = some 0 ∧
    okBeep (stepN c3state 2) = some true := by
  refine ⟨by decide, by decide, by decide⟩

/-- C3 (amended): the beep flag is sticky, not one-shot: after any
successful cycle the flag is true exactly when it was already true before
the cycle or the sound timer was exactly 1 when the timer epilogue ran
(that is, this cycle decremented it from 1 to 0). No cycle ever clears the
flag. -/
theorem c3_amended_beep_sticky (s t : Chip8) (h : fetchExec s = .ok t) :
    emulate_cycle s = .ok (tick t) ∧
    ((tick t).beep_flag = true ↔
      (s.beep_flag = true ∨ t.sound_timer = 1)) := by
  constructor
  · unfold emulate_cycle
    rw [h]
  · rw [tick_beep_flag, fetchExec_beep s t h]
    simp

theorem c3_amended_beep_sticky_witness :
    okBeep (emulate_cycle c3state) = some true := by
  have h := c3_amended_beep_sticky c3state c3execResult rfl
  rw [h.1]
  have hb : (tick c3execResult).beep_flag = true :=
    h.2.mpr (Or.inr rfl)
  simp [okBeep, hb]

/-! FX0A dispatch lemmas, shared by the key-wait claims. -/

theorem execOpcode_FX0A (s : Chip8) (x : Nat) (hx : x < 16) :
    execOpcode s (0xF000 + x * 256 + 0x0A) =
      match s.last_key with
      | some key => .ok { setReg s x (key % 256) with
                          program_counter := (s.program_counter + 2) % 65536 }
      | none => .ok s := by
  have hm : (0xF000 + x * 256 + 0x0A) &&& 0xF000 = 0xF000 := by
    rw [and_F000]; omega
  have hX : ((0xF000 + x * 256 + 0x0A) &&& 0x0F00) >>> 8 = x := by
    rw [and_0F00_shr]; omega
  have hnn : (0xF000 + x * 256 + 0x0A) &&& 0x00FF = 0x0A := by
    rw [and_00FF]; omega
  unfold execOpcode
  rw [hm, hX, hnn]

theorem step_FX0A_none (s : Chip8) (x : Nat) (hx : x < 16)
    (hpc : s.program_counter + 1 < 4096)
    (hhi : s.memory s.program_counter = 0xF0 + x)
    (hlo : s.memory (s.program_counter + 1) = 0x0A)
    (hlk : s.last_key = none) :
    emulate_cycle s = .ok (tick { s with opcode := 0xF000 + x * 256 + 0x0A }) := by
  have hfetch : (s.memory s.program_counter <<< 8) |||
      s.memory (s.program_counter + 1) = 0xF000 + x * 256 + 0x0A := by
    rw [hhi, hlo, fetch_or _ _ (by norm_num)]
    ring
  apply emulate_cycle_ok s _ hpc
  rw [hfetch, execOpcode_FX0A _ x hx]
  have hlk2 : ({ s with opcode := 0xF000 + x * 256 + 0x0A } : Chip8).last_key
      = none := hlk
  rw [hlk2]

theorem step_FX0A_some (s : Chip8) (x k : Nat) (hx : x < 16)
    (hpc : s.program_counter + 1 < 4096)
    (hhi : s.memory s.program_counter = 0xF0 + x)
    (hlo : s.memory (s.program_counter + 1) = 0x0A)
    (hlk : s.last_key = some k) :
    emulate_cycle s = .ok (tick
      { setReg { s with opcode := 0xF000 + x * 256 + 0x0A } x (k % 256) with
        program_counter := (s.program_counter + 2) % 65536 }) := by
  have hfetch : (s.memory s.program_counter <<< 8) |||
      s.memory (s.program_counter + 1) = 0xF000 + x * 256 + 0x0A := by
    rw [hhi, hlo, fetch_or _ _ (by norm_num)]
    ring
  apply emulate_cycle_ok s _ hpc
  rw [hfetch, execOpcode_FX0A _ x hx]
  have hlk2 : ({ s with opcode := 0xF000 + x * 256 + 0x0A } : Chip8).last_key
      = some k := hlk
  rw [hlk2]

/-- C5 counterexample: with V15 = 3, executing 8XY6 with X = 0 and Y = 15
(opcode 0x80F6) writes 0 into V0, not the pre-shift V15 >> 1 = 1: the flag
write happens first, so the shifted value is computed from the overwritten
V15, not from its value before the instruction. -/
theorem c5_counterexample :
    c5state.registers 15 >>> 1 = 1 ∧
    okReg 0 (emulate_cycle c5state) = some 0 := by
  refine ⟨by decide, by decide⟩

/-- C5 (amended): for X and Y both different from the flag register 15,
8XY6 writes the logical right shift of the pre-instruction VY into VX with
flag = the pre-shift least significant bit of VY (0 or 1), and 8XYE writes
the 8-bit truncated left shift of the pre-instruction VY into VX with flag
= the raw masked pre-shift top bit of VY (0 or 0x80, not normalized); the
program counter advances by 2 and no other register changes. When X or Y
is 15 the two writes alias the flag register and this no longer holds. -/
theorem c5_amended_shifts (s : Chip8) (x y : Nat) (hx : x < 15) (hy : y < 15)
    (hpc : s.program_counter + 1 < 4096) :
    (s.memory s.program_counter = 0x80 + x →
     s.memory (s.program_counter + 1) = y * 16 + 6 →
     ∃ t, emulate_cycle s = .ok t ∧
       t.registers x = s.registers y >>> 1 ∧
       t.registers 15 = s.registers y &&& 0x01 ∧
       (t.registers 15 = 0 ∨ t.registers 15 = 1) ∧
       (∀ j, j ≠ x → j ≠ 15 → t.registers j = s.registers j) ∧
       t.program_counter = (s.program_counter + 2) % 65536) ∧
    (s.memory s.program_counter = 0x80 + x →
     s.memory (s.program_counter + 1) = y * 16 + 14 →
     ∃ t, emulate_cycle s = .ok t ∧
       t.registers x = (s.registers y <<< 1) % 256 ∧
       t.registers 15 = s.registers y &&& 0x80 ∧
       (t.registers 15 = 0 ∨ t.registers 15 = 0x80) ∧
       (∀ j, j ≠ x → j ≠ 15 → t.registers j = s.registers j) ∧
       t.program_counter = (s.program_counter + 2) % 65536) := by
  constructor
  · intro hhi hlo
    have hfetch : (s.memory s.program_counter <<< 8) |||
        s.memory (s.program_counter + 1) = 0x8000 + x * 256 + y * 16 + 6 := by
      rw [hhi, hlo, fetch_or _ _ (by omega)]
      ring
    have hm : (0x8000 + x * 256 + y * 16 + 6) &&& 0xF000 = 0x8000 := by
      rw [and_F000]; omega
    have hX : ((0x8000 + x * 256 + y * 16 + 6) &&& 0x0F00) >>> 8 = x := by
      rw [and_0F00_shr]; omega
    have hY : ((0x8000 + x * 256 + y * 16 + 6) &&& 0x00F0) >>> 4 = y := by
      rw [and_00F0_shr]; omega
    have hN : (0x8000 + x * 256 + y * 16 + 6) &&& 0x000F = 6 := by
      rw [and_000F]; omega
    have hcycle : emulate_cycle s = .ok (tick
        { setReg (setReg { s with opcode := 0x8000 + x * 256 + y * 16 + 6 } 15
              (s.registers y &&& 0x01)) x
            ((setReg { s with opcode := 0x8000 + x * 256 + y * 16 + 6 } 15
              (s.registers y &&& 0x01)).registers y >>> 1) with
          program_counter := (s.program_counter + 2) % 65536 }) := by
      apply emulate_cycle_ok s _ hpc
      rw [hfetch]
      unfold execOpcode
      rw [hm, hX, hY, hN]
      split
      all_goals rename_i heq
      all_goals try (exact absurd heq (by decide))
      · rfl
      · exact absurd rfl (by assumption)
    have hyreg : (setReg { s with opcode := 0x8000 + x * 256 + y * 16 + 6 } 15
        (s.registers y &&& 0x01)).registers y = s.registers y :=
      setReg_ne _ 15 _ y (by omega)
    refine ⟨_, hcycle, ?_, ?_, ?_, ?_, ?_⟩
    · rw [tick_registers, setReg_at, hyreg]
    · rw [tick_registers, setReg_ne _ _ _ 15 (by omega), setReg_at]
    · rw [tick_registers, setReg_ne _ _ _ 15 (by omega), setReg_at, and_0001]
      omega
    · intro j hjx hj15
      rw [tick_registers, setReg_ne _ _ _ j hjx, setReg_ne _ _ _ j hj15]
    · rw [tick_program_counter]
  · intro hhi hlo
    have hfetch : (s.memory s.program_counter <<< 8) |||
        s.memory (s.program_counter + 1) = 0x8000 + x * 256 + y * 16 + 14 := by
      rw [hhi, hlo, fetch_or _ _ (by omega)]
      ring
    have hm : (0x8000 + x * 256 + y * 16 + 14) &&& 0xF000 = 0x8000 := by
      rw [and_F000]; omega
    have hX : ((0x8000 + x * 256 + y * 16 + 14) &&& 0x0F00) >>> 8 = x := by
      rw [and_0F00_shr]; omega
    have hY : ((0x8000 + x * 256 + y * 16 + 14) &&& 0x00F0) >>> 4 = y := by
      rw [and_00F0_shr]; omega
    have hN : (0x8000 + x * 256 + y * 16 + 14) &&& 0x000F = 14 := by
      rw [and_000F]; omega
    have hcycle : emulate_cycle s = .ok (tick
        { setReg (setReg { s with opcode := 0x8000 + x * 256 + y * 16 + 14 } 15
              (s.registers y &&& 0x80)) x
            (((setReg { s with opcode := 0x8000 + x * 256 + y * 16 + 14 } 15
              (s.registers y &&& 0x80)).registers y <<< 1) % 256) with
          program_counter := (s.program_counter + 2) % 65536 }) := by
      apply emulate_cycle_ok s _ hpc
      rw [hfetch]
      unfold execOpcode
      rw [hm, hX, hY, hN]
      split
      all_goals rename_i heq
      all_goals try (exact absurd heq (by decide))
      · rfl
      · exact absurd rfl (by assumption)
    have hyreg : (setReg { s with opcode := 0x8000 + x * 256 + y * 16 + 14 } 15
        (s.registers y &&& 0x80)).registers y = s.registers y :=
      setReg_ne _ 15 _ y (by omega)
    refine ⟨_, hcycle, ?_, ?_, ?_, ?_, ?_⟩
    · rw [tick_registers, setReg_at, hyreg]
    · rw [tick_registers, setReg_ne _ _ _ 15 (by omega), setReg_at]
    · rw [tick_registers, setReg_ne _ _ _ 15 (by omega), setReg_at, and_0080]
      omega
    · intro j hjx hj15
      rw [tick_registers, setReg_ne _ _ _ j hjx, setReg_ne _ _ _ j hj15]
    · rw [tick_program_counter]

theorem c5_amended_shifts_witness :
    okReg 0 (emulate_cycle c5stateA) = some 1 ∧
    okReg 15 (emulate_cycle c5stateA) = some 1 ∧
    okReg 0 (emulate_cycle c5stateB) = some 2 ∧
    okReg 15 (emulate_cycle c5stateB) = some 0x80 := by
  obtain ⟨t, ht, h1, h2, h3, h4, h5⟩ :=
    (c5_amended_shifts c5stateA 0 1 (by norm_num) (by norm_num)
      (by norm_num [c5stateA, zeroState])).1
      (by norm_num [c5stateA, zeroState]) (by norm_num [c5stateA, zeroState])
  obtain ⟨u, hu, g1, g2, g3, g4, g5⟩ :=
    (c5_amended_shifts c5stateB 0 1 (by norm_num) (by norm_num)
      (by norm_num [c5stateB, zeroState])).2
      (by norm_num [c5stateB, zeroState]) (by norm_num [c5stateB, zeroState])
  rw [ht] at *
  rw [hu] at *
  simp only [okReg]
  rw [h1, h2, g1, g2]
  norm_num [c5stateA, c5stateB, zeroState]
  decide

/-- C6: FX0A with no latched key leaves the program counter, memory and
registers unchanged over any number of consecutive cycles while no key
event arrives; with a latched key k the next FX0A cycle writes k into VX
and advances the program counter by 2; and every successful cycle clears
the key latch, consumed or not. -/
theorem c6_fx0a_blocking :
    (∀ (s : Chip8) (x : Nat), x < 16 →
      s.program_counter + 1 < 4096 →
      s.memory s.program_counter = 0xF0 + x →
      s.memory (s.program_counter + 1) = 0x0A →
      s.last_key = none →
      ∀ n, ∃ t, stepN s n = .ok t ∧
        t.program_counter = s.program_counter ∧
        t.memory = s.memory ∧ t.registers = s.registers ∧
        t.last_key = none) ∧
    (∀ (s : Chip8) (x k : Nat), x < 16 → k < 256 →
      s.program_counter + 1 < 4096 →
      s.memory s.program_counter = 0xF0 + x →
      s.memory (s.program_counter + 1) = 0x0A →
      s.last_key = some k →
      ∃ t, emulate_cycle s = .ok t ∧
        t.registers x = k ∧
        t.program_counter = (s.program_counter + 2) % 65536 ∧
        t.last_key = none) ∧
    (∀ s t : Chip8, emulate_cycle s = .ok t → t.last_key = none) := by
  refine ⟨?_, ?_, ?_⟩
  · intro s x hx hpc hhi hlo hlk n
    induction n generalizing s with
    | zero => exact ⟨s, rfl, rfl, rfl, rfl, hlk⟩
    | succ n ih =>
      have hstep := step_FX0A_none s x hx hpc hhi hlo hlk
      have hnext := ih (tick { s with opcode := 0xF000 + x * 256 + 0x0A })
        (by rw [tick_program_counter]; exact hpc)
        (by rw [tick_memory, tick_program_counter]; exact hhi)
        (by rw [tick_memory, tick_program_counter]; exact hlo)
        (tick_last_key _)
      obtain ⟨t, hrun, hp, hm, hr, hl⟩ := hnext
      refine ⟨t, ?_, ?_, ?_, ?_, hl⟩
      · show stepN s (n + 1) = .ok t
        unfold stepN
        rw [hstep]
        exact hrun
      · rw [hp, tick_program_counter]
      · rw [hm, tick_memory]
      · rw [hr, tick_registers]
  · intro s x k hx hk hpc hhi hlo hlk
    have hstep := step_FX0A_some s x k hx hpc hhi hlo hlk
    refine ⟨_, hstep, ?_, ?_, tick_last_key _⟩
    · rw [tick_registers, setReg_at]
      omega
    · rw [tick_program_counter]
  · intro s t h
    unfold emulate_cycle at h
    split at h
    · injection h with h2
      subst h2
      exact tick_last_key _
    · simp at h

theorem c6_fx0a_blocking_witness :
    okPC (stepN c6state 3) = some 0x200 ∧
    okReg 2 (emulate_cycle c6stateB) = some 7 ∧
    okPC (emulate_cycle c6stateB) = some 0x202 := by
  obtain ⟨t, hrun, hp, _, _, _⟩ := c6_fx0a_blocking.1 c6state 2 (by norm_num)
    (by norm_num [c6state, zeroState]) (by norm_num [c6state, zeroState])
    (by norm_num [c6state, zeroState]) (by norm_num [c6state, zeroState]) 3
  obtain ⟨u, hstep, hr, hpc2, _⟩ := c6_fx0a_blocking.2.1 c6stateB 2 7
    (by norm_num) (by norm_num)
    (by norm_num [c6stateB, c6state, zeroState])
    (by norm_num [c6stateB, c6state, zeroState])
    (by norm_num [c6stateB, c6state, zeroState])
    (by norm_num [c6stateB, c6state, zeroState])
  rw [hrun, hstep]
  simp only [okPC, okReg]
  rw [hp, hr, hpc2]
  norm_num [c6state, c6stateB, zeroState]

/-- Recognized keycodes map to key indices below 16. -/
theorem keycodeIndex_lt (key : Keycode) (i : Nat)
    (hk : keycodeIndex key = some i) : i < 16 := by
  cases key <;> simp_all [keycodeIndex] <;> omega

/-- C9: a key release latches exactly like a press: set_key_state with
pressed = false stores false in the key flag but still overwrites the
last-key latch with the key index, and an FX0A executed on the following
cycle consumes that release event, writing the key index into VX and
advancing the program counter by 2. -/
theorem c9_release_latches (s : Chip8) (key : Keycode) (i x : Nat)
    (hk : keycodeIndex key = some i) (hx : x < 16)
    (hpc : s.program_counter + 1 < 4096)
    (hhi : s.memory s.program_counter = 0xF0 + x)
    (hlo : s.memory (s.program_counter + 1) = 0x0A) :
    (set_key_state s key false).keys i = false ∧
    (set_key_state s key false).last_key = some i ∧
    ∃ t, emulate_cycle (set_key_state s key false) = .ok t ∧
      t.registers x = i ∧
      t.program_counter = (s.program_counter + 2) % 65536 := by
  have hi16 := keycodeIndex_lt key i hk
  have hkeys : (set_key_state s key false).keys i = false := by
    unfold set_key_state
    rw [hk]
    simp
  have hlk : (set_key_state s key false).last_key = some i := by
    unfold set_key_state
    rw [hk]
  have hproj : ∀ j, (set_key_state s key false).memory j = s.memory j := by
    intro j
    unfold set_key_state
    rw [hk]
  have hpcproj : (set_key_state s key false).program_counter
      = s.program_counter := by
    unfold set_key_state
    rw [hk]
  refine ⟨hkeys, hlk, ?_⟩
  have hstep := step_FX0A_some (set_key_state s key false) x i hx
    (by rw [hpcproj]; exact hpc)
    (by rw [hpcproj, hproj]; exact hhi)
    (by rw [hpcproj, hproj]; exact hlo)
    hlk
  refine ⟨_, hstep, ?_, ?_⟩
  · rw [tick_registers, setReg_at]
    omega
  · rw [tick_program_counter, hpcproj]

theorem c9_release_latches_witness :
    (set_key_state c9state Keycode.W false).keys 0x5 = false ∧
    okReg 0 (emulate_cycle (set_key_state c9state Keycode.W false)) = some 0x5 ∧
    okPC (emulate_cycle (set_key_state c9state Keycode.W false)) = some 0x202 := by
  obtain ⟨h1, h2, t, ht, hr, hp⟩ := c9_release_latches c9state Keycode.W 0x5 0
    rfl (by norm_num) (by norm_num [c9state, zeroState])
    (by norm_num [c9state, zeroState]) (by norm_num [c9state, zeroState])
  refine ⟨h1, ?_, ?_⟩
  · rw [ht]
    simp only [okReg]
    rw [hr]
  · rw [ht]
    simp only [okPC]
    rw [hp]
    norm_num [c9state, zeroState]

/-! Characterization of the FX55 store loop and the FX65 load loop. -/

theorem storeRegs_spec (L : List Nat) (s : Chip8)
    (hin : s.index + L.length ≤ 4096) :
    ∃ t, storeRegs L s = .ok t ∧
      t.index = s.index + L.length ∧
      t.registers = s.registers ∧
      t.program_counter = s.program_counter ∧
      t.framebuffer = s.framebuffer ∧
      t.opcode = s.opcode ∧
      t.delay_timer = s.delay_timer ∧ t.sound_timer = s.sound_timer ∧
      t.beep_flag = s.beep_flag ∧ t.last_key = s.last_key ∧
      (∀ p (hp : p < L.length),
        t.memory (s.index + p) = s.registers (L.get ⟨p, hp⟩)) ∧
      (∀ j, j < s.index ∨ s.index + L.length ≤ j → t.memory j = s.memory j) := by
  induction L generalizing s with
  | nil =>
    refine ⟨s, rfl, by simp, rfl, rfl, rfl, rfl, rfl, rfl, rfl, rfl, ?_,
      fun j _ => rfl⟩
    intro p hp
    simp at hp
  | cons i L2 ih =>
    have hlen : (i :: L2).length = L2.length + 1 := by simp
    have hidx : s.index < 4096 := by
      rw [hlen] at hin
      omega
    have hmod : (s.index + 1) % 65536 = s.index + 1 := by omega
    obtain ⟨t, hrun, hidx2, hregs, hpc, hfb, hop, hdt, hst, hbp, hlk, hpos,
        huntouched⟩ :=
      ih { s with
            memory := fun j => if j = s.index then s.registers i
                               else s.memory j,
            index := (s.index + 1) % 65536 }
        (by
          show (s.index + 1) % 65536 + L2.length ≤ 4096
          rw [hlen] at hin
          omega)
    have hidx3 : t.index = s.index + 1 + L2.length := by
      rw [hidx2]
      show (s.index + 1) % 65536 + L2.length = s.index + 1 + L2.length
      omega
    refine ⟨t, ?_, ?_, hregs, hpc, hfb, hop, hdt, hst, hbp, hlk, ?_, ?_⟩
    · show storeRegs (i :: L2) s = .ok t
      unfold storeRegs memWrite
      rw [if_pos hidx]
      exact hrun
    · rw [hidx3, hlen]
      omega
    · intro p hp
      match p with
      | 0 =>
        have hu := huntouched (s.index + 0) (by
          show s.index + 0 < (s.index + 1) % 65536 ∨ _
          left
          omega)
        rw [hu]
        simp
      | q + 1 =>
        have hq : q < L2.length := by
          rw [hlen] at hp
          omega
        have hpq := hpos q hq
        have haddr : (s.index + 1) % 65536 + q = s.index + (q + 1) := by omega
        rw [haddr] at hpq
        rw [hpq]
        simp
    · intro j hj
      rw [hlen] at hj
      have hu := huntouched j (by
        show j < (s.index + 1) % 65536 ∨ (s.index + 1) % 65536 + L2.length ≤ j
        omega)
      rw [hu]
      have hne : j ≠ s.index := by omega
      simp [hne]

theorem loadRegs_spec (L : List Nat) (s : Chip8) (hnd : L.Nodup)
    (hin : s.index + L.length ≤ 4096) :
    ∃ t, loadRegs L s = .ok t ∧
      t.index = s.index + L.length ∧
      t.memory = s.memory ∧
      t.program_counter = s.program_counter ∧
      t.framebuffer = s.framebuffer ∧
      t.opcode = s.opcode ∧
      t.delay_timer = s.delay_timer ∧ t.sound_timer = s.sound_timer ∧
      t.beep_flag = s.beep_flag ∧ t.last_key = s.last_key ∧
      (∀ p (hp : p < L.length),
        t.registers (L.get ⟨p, hp⟩) = s.memory (s.index + p)) ∧
      (∀ j, j ∉ L → t.registers j = s.registers j) := by
  induction L generalizing s with
  | nil =>
    refine ⟨s, rfl, by simp, rfl, rfl, rfl, rfl, rfl, rfl, rfl, rfl, ?_,
      fun j _ => rfl⟩
    intro p hp
    simp at hp
  | cons i L2 ih =>
    obtain ⟨hni, hnd2⟩ := List.nodup_cons.mp hnd
    have hlen : (i :: L2).length = L2.length + 1 := by simp
    have hidx : s.index < 4096 := by
      rw [hlen] at hin
      omega
    have hmod : (s.index + 1) % 65536 = s.index + 1 := by omega
    obtain ⟨t, hrun, hidx2, hmem, hpc, hfb, hop, hdt, hst, hbp, hlk, hpos,
        huntouched⟩ :=
      ih { setReg s i (s.memory s.index) with index := (s.index + 1) % 65536 }
        hnd2
        (by
          show (s.index + 1) % 65536 + L2.length ≤ 4096
          rw [hlen] at hin
          omega)
    have hidx3 : t.index = s.index + 1 + L2.length := by
      rw [hidx2]
      show (s.index + 1) % 65536 + L2.length = s.index + 1 + L2.length
      omega
    refine ⟨t, ?_, ?_, hmem, hpc, hfb, hop, hdt, hst, hbp, hlk, ?_, ?_⟩
    · show loadRegs (i :: L2) s = .ok t
      unfold loadRegs memRead
      rw [if_pos hidx]
      exact hrun
    · rw [hidx3, hlen]
      omega
    · intro p hp
      match p with
      | 0 =>
        have hu := huntouched i hni
        show t.registers i = s.memory (s.index + 0)
        rw [hu]
        have : ({ setReg s i (s.memory s.index) with
            index := (s.index + 1) % 65536 } : Chip8).registers i
            = s.memory s.index := setReg_at s i _
        rw [this]
        simp
      | q + 1 =>
        have hq : q < L2.length := by
          rw [hlen] at hp
          omega
        have hpq := hpos q hq
        have haddr : (s.index + 1) % 65536 + q = s.index + (q + 1) := by omega
        rw [haddr] at hpq
        show t.registers ((i :: L2).get ⟨q + 1, hp⟩) = s.memory (s.index + (q + 1))
        rw [List.get_cons_succ]
        exact hpq
    · intro j hj
      have hji : j ≠ i := by
        intro h
        exact hj (h ▸ List.mem_cons_self i L2)
      have hj2 : j ∉ L2 := fun h => hj (List.mem_cons_of_mem i h)
      have hu := huntouched j hj2
      rw [hu]
      exact setReg_ne s i _ j hji

/-- C8: FX55 with X = 3 stores V0..V3 into memory at the index register
base b and leaves index = b + 4; resetting index to b and executing FX65
with X = 3 restores V0..V3 from memory and again leaves index = b + 4, so
the two operations are a store/load round trip advancing the index by one
per register transferred. -/
theorem c8_store_load_roundtrip (s : Chip8) (b : Nat)
    (hidx : s.index = b) (hb : b + 3 < 4096)
    (hpc : s.program_counter + 3 < 4096)
    (hd2 : s.program_counter + 2 < b ∨ b + 4 ≤ s.program_counter + 2)
    (hd3 : s.program_counter + 3 < b ∨ b + 4 ≤ s.program_counter + 3)
    (h1 : s.memory s.program_counter = 0xF3)
    (h2 : s.memory (s.program_counter + 1) = 0x55)
    (h3 : s.memory (s.program_counter + 2) = 0xF3)
    (h4 : s.memory (s.program_counter + 3) = 0x65) :
    ∃ t1, emulate_cycle s = .ok t1 ∧
      t1.index = b + 4 ∧
      (∀ p, p < 4 → t1.memory (b + p) = s.registers p) ∧
      t1.registers = s.registers ∧
      t1.program_counter = s.program_counter + 2 ∧
      ∃ t2, emulate_cycle { t1 with index := b } = .ok t2 ∧
        t2.index = b + 4 ∧
        (∀ p, p < 4 → t2.registers p = s.registers p) ∧
        (∀ j, 4 ≤ j → t2.registers j = s.registers j) ∧
        t2.memory = t1.memory := by
  -- first cycle: FX55 with X = 3
  obtain ⟨u1, hrun1, hidx1, hregs1, hpc1, hfb1, hop1, hdt1, hst1, hbp1, hlk1,
      hpos1, hun1⟩ :=
    storeRegs_spec (List.range 4) { s with opcode := 0xF355 }
      (by
        show s.index + (List.range 4).length ≤ 4096
        simp [List.length_range]
        omega)
  have hfetch1 : (s.memory s.program_counter <<< 8) |||
      s.memory (s.program_counter + 1) = 0xF355 := by
    rw [h1, h2, fetch_or _ _ (by norm_num)]
  have hexec1 : execOpcode { s with opcode := 0xF355 } 0xF355 =
      .ok { u1 with program_counter := (u1.program_counter + 2) % 65536 } := by
    unfold execOpcode
    rw [(show (0xF355 : Nat) &&& 0xF000 = 0xF000 by decide),
        (show ((0xF355 : Nat) &&& 0x0F00) >>> 8 = 3 by decide),
        (show (0xF355 : Nat) &&& 0x00FF = 0x55 by decide)]
    dsimp only
    rw [(show (3 + 1 : Nat) = 4 from rfl), hrun1]
  have hcycle1 : emulate_cycle s =
      .ok (tick { u1 with program_counter := (u1.program_counter + 2) % 65536 }) := by
    apply emulate_cycle_ok s _ (by omega)
    rw [hfetch1]
    exact hexec1
  have hlen4 : (List.range 4).length = 4 := by simp
  have hmem1 : ∀ p, p < 4 → u1.memory (b + p) = s.registers p := by
    intro p hp
    have := hpos1 p (by rw [hlen4]; exact hp)
    rw [List.get_range] at this
    have haddr : ({ s with opcode := 0xF355 } : Chip8).index + p = b + p := by
      show s.index + p = b + p
      rw [hidx]
    rw [haddr] at this
    exact this
  have hu1idx : u1.index = b + 4 := by
    rw [hidx1, hlen4]
    show s.index + 4 = b + 4
    rw [hidx]
  have hu1pc : u1.program_counter = s.program_counter := hpc1
  have hpcmod : (u1.program_counter + 2) % 65536 = s.program_counter + 2 := by
    rw [hu1pc]
    omega
  set t1 := tick { u1 with program_counter := (u1.program_counter + 2) % 65536 }
    with ht1def
  have ht1mem : t1.memory = u1.memory := tick_memory _
  have ht1regs : t1.registers = u1.registers := tick_registers _
  have ht1idx : t1.index = b + 4 := by
    rw [ht1def, tick_index]
    exact hu1idx
  have ht1pc : t1.program_counter = s.program_counter + 2 := by
    rw [ht1def, tick_program_counter]
    exact hpcmod
  refine ⟨t1, hcycle1, ht1idx, ?_, ?_, ht1pc, ?_⟩
  · intro p hp
    rw [ht1mem]
    exact hmem1 p hp
  · rw [ht1regs]
    exact hregs1
  · -- second cycle: FX65 with X = 3 from { t1 with index := b }
    have hmemout : ∀ j, j < b ∨ b + 4 ≤ j → t1.memory j = s.memory j := by
      intro j hj
      rw [ht1mem]
      have := hun1 j (by
        show j < ({ s with opcode := 0xF355 } : Chip8).index ∨
          ({ s with opcode := 0xF355 } : Chip8).index + (List.range 4).length ≤ j
        rw [hlen4]
        show j < s.index ∨ s.index + 4 ≤ j
        omega)
      exact this
    obtain ⟨u2, hrun2, hidx2, hmem2, hpc2, hfb2, hop2, hdt2, hst2, hbp2, hlk2,
        hpos2, hun2⟩ :=
      loadRegs_spec (List.range 4)
        { { t1 with index := b } with opcode := 0xF365 }
        (List.nodup_range 4)
        (by
          show b + (List.range 4).length ≤ 4096
          rw [hlen4]
          omega)
    have hfetch2 : (({ t1 with index := b } : Chip8).memory
          ({ t1 with index := b } : Chip8).program_counter <<< 8) |||
        ({ t1 with index := b } : Chip8).memory
          (({ t1 with index := b } : Chip8).program_counter + 1) = 0xF365 := by
      show (t1.memory t1.program_counter <<< 8) |||
        t1.memory (t1.program_counter + 1) = 0xF365
      rw [ht1pc]
      rw [hmemout (s.program_counter + 2) (by omega),
          hmemout (s.program_counter + 2 + 1) (by omega)]
      rw [(show s.program_counter + 2 + 1 = s.program_counter + 3 by omega)]
      rw [h3, h4, fetch_or _ _ (by norm_num)]
    have hexec2 : execOpcode { { t1 with index := b } with opcode := 0xF365 }
        0xF365 =
        .ok { u2 with program_counter := (u2.program_counter + 2) % 65536 } := by
      unfold execOpcode
      rw [(show (0xF365 : Nat) &&& 0xF000 = 0xF000 by decide),
          (show ((0xF365 : Nat) &&& 0x0F00) >>> 8 = 3 by decide),
          (show (0xF365 : Nat) &&& 0x00FF = 0x65 by decide)]
      dsimp only
      rw [(show (3 + 1 : Nat) = 4 from rfl), hrun2]
    have hcycle2 : emulate_cycle { t1 with index := b } =
        .ok (tick { u2 with
          program_counter := (u2.program_counter + 2) % 65536 }) := by
      apply emulate_cycle_ok _ _ (by
        show t1.program_counter + 1 < 4096
        rw [ht1pc]
        omega)
      rw [hfetch2]
      exact hexec2
    have hu2regs : ∀ p, p < 4 → u2.registers p = s.registers p := by
      intro p hp
      have := hpos2 p (by rw [hlen4]; exact hp)
      rw [List.get_range] at this
      have haddr : ({ { t1 with index := b } with opcode := 0xF365 } :
          Chip8).index + p = b + p := rfl
      rw [haddr] at this
      rw [this]
      show t1.memory (b + p) = s.registers p
      rw [ht1mem]
      exact hmem1 p hp
    have hu2other : ∀ j, 4 ≤ j → u2.registers j = s.registers j := by
      intro j hj
      have := hun2 j (by
        intro hmem
        rw [List.mem_range] at hmem
        omega)
      rw [this]
      show t1.registers j = s.registers j
      rw [ht1regs, hregs1]
    refine ⟨_, hcycle2, ?_, ?_, ?_, ?_⟩
    · rw [tick_index]
      show u2.index = b + 4
      rw [hidx2, hlen4]
    · intro p hp
      rw [tick_registers]
      exact hu2regs p hp
    · intro j hj
      rw [tick_registers]
      exact hu2other j hj
    · rw [tick_memory]
      show u2.memory = t1.memory
      rw [hmem2]

theorem c8_store_load_roundtrip_witness :
    okIndex (emulate_cycle c8state) = some 0x304 ∧
    okPC (emulate_cycle c8state) = some 0x202 := by
  obtain ⟨t1, ht1, hidx, hmem, hregs, hpc, hrest⟩ :=
    c8_store_load_roundtrip c8state 0x300 rfl (by norm_num)
      (by norm_num [c8state, zeroState])
      (by norm_num [c8state, zeroState])
      (by norm_num [c8state, zeroState])
      (by norm_num [c8state, zeroState])
      (by norm_num [c8state, zeroState])
      (by norm_num [c8state, zeroState])
      (by norm_num [c8state, zeroState])
  rw [ht1]
  simp only [okIndex, okPC]
  rw [hidx, hpc]
  norm_num [c8state, zeroState]

/-! Characterization of the DXYN blit loops. -/

theorem untouchedDraw_refl (s : Chip8) : untouchedDraw s s :=
  ⟨rfl, rfl, rfl, rfl, rfl, rfl, rfl, rfl, rfl, rfl, rfl, rfl, rfl⟩

theorem untouchedDraw_trans {s u t : Chip8} (h1 : untouchedDraw s u)
    (h2 : untouchedDraw u t) : untouchedDraw s t := by
  obtain ⟨a1, a2, a3, a4, a5, a6, a7, a8, a9, a10, a11, a12, a13⟩ := h1
  obtain ⟨b1, b2, b3, b4, b5, b6, b7, b8, b9, b10, b11, b12, b13⟩ := h2
  exact ⟨b1.trans a1, b2.trans a2, b3.trans a3, b4.trans a4, b5.trans a5,
    b6.trans a6, b7.trans a7, b8.trans a8, b9.trans a9, b10.trans a10,
    b11.trans a11, b12.trans a12, b13.trans a13⟩

theorem drawBit_oob (s : Chip8) (idx : Nat) (h : 2048 ≤ idx) :
    drawBit s idx = .error .IndexOutOfBounds := by
  unfold drawBit fbRead
  rw [if_neg (by omega)]

theorem drawBit_collide (s : Chip8) (idx : Nat) (hlt : idx < 2048)
    (hc : s.framebuffer idx = 1) :
    drawBit s idx = .ok
      { setReg s 15 1 with
        framebuffer := fun j => if j = idx then s.framebuffer idx ^^^ 1
                                else s.framebuffer j } := by
  unfold drawBit fbRead fbWrite
  rw [if_pos hlt]
  dsimp only
  rw [if_pos hc, if_pos hlt]
  rfl

theorem drawBit_free (s : Chip8) (idx : Nat) (hlt : idx < 2048)
    (hc : s.framebuffer idx ≠ 1) :
    drawBit s idx = .ok
      { s with
        framebuffer := fun j => if j = idx then s.framebuffer idx ^^^ 1
                                else s.framebuffer j } := by
  unfold drawBit fbRead fbWrite
  rw [if_pos hlt]
  dsimp only
  rw [if_neg hc, if_pos hlt]

theorem drawBits_spec (pixel x rowY : Nat) (L : List Nat) (s : Chip8)
    (hnd : L.Nodup)
    (hin : ∀ xl ∈ L, pixel &&& (0x80 >>> xl) ≠ 0 → x + xl + rowY * 64 < 2048) :
    ∃ t, drawBits pixel x rowY L s = .ok t ∧
      untouchedDraw s t ∧
      (∀ j, j ≠ 15 → t.registers j = s.registers j) ∧
      (∀ xl ∈ L, pixel &&& (0x80 >>> xl) ≠ 0 →
        t.framebuffer (x + xl + rowY * 64) =
          s.framebuffer (x + xl + rowY * 64) ^^^ 1) ∧
      (∀ j, (∀ xl ∈ L, pixel &&& (0x80 >>> xl) ≠ 0 → j ≠ x + xl + rowY * 64) →
        t.framebuffer j = s.framebuffer j) ∧
      ((∃ xl ∈ L, pixel &&& (0x80 >>> xl) ≠ 0 ∧
          s.framebuffer (x + xl + rowY * 64) = 1) → t.registers 15 = 1) ∧
      ((∀ xl ∈ L, pixel &&& (0x80 >>> xl) ≠ 0 →
          s.framebuffer (x + xl + rowY * 64) ≠ 1) →
        t.registers 15 = s.registers 15) := by
  induction L generalizing s with
  | nil =>
    refine ⟨s, rfl, untouchedDraw_refl s, fun j _ => rfl, by simp,
      fun j _ => rfl, ?_, fun _ => rfl⟩
    intro h
    simp at h
  | cons xl L2 ih =>
    obtain ⟨hxl, hnd2⟩ := List.nodup_cons.mp hnd
    by_cases hbit : pixel &&& (0x80 >>> xl) = 0
    · -- source bit clear: the cell is not touched
      obtain ⟨t, hrun, hcore, hreg, hhit, hmiss, hvf1, hvf0⟩ :=
        ih s hnd2 (fun a ha hb => hin a (List.mem_cons_of_mem xl ha) hb)
      refine ⟨t, ?_, hcore, hreg, ?_, ?_, ?_, ?_⟩
      · conv_lhs => unfold drawBits
        rw [if_neg (not_not_intro hbit)]
        exact hrun
      · intro a ha hb
        rcases List.mem_cons.mp ha with h | h
        · subst h
          exact absurd hbit hb
        · exact hhit a h hb
      · intro j hj
        exact hmiss j (fun a ha hb => hj a (List.mem_cons_of_mem xl ha) hb)
      · intro hex
        apply hvf1
        obtain ⟨a, ha, hb, hc⟩ := hex
        rcases List.mem_cons.mp ha with h | h
        · subst h
          exact absurd hbit hb
        · exact ⟨a, h, hb, hc⟩
      · intro hall
        exact hvf0 (fun a ha hb => hall a (List.mem_cons_of_mem xl ha) hb)
    · -- source bit set
      have hlt : x + xl + rowY * 64 < 2048 :=
        hin xl (List.mem_cons_self xl L2) hbit
      have hinj : ∀ a, x + xl + rowY * 64 = x + a + rowY * 64 → xl = a := by
        intro a h
        omega
      by_cases hcol : s.framebuffer (x + xl + rowY * 64) = 1
      · -- collision on this cell
        obtain ⟨t, hrun, hcore, hreg, hhit, hmiss, hvf1, hvf0⟩ :=
          ih { setReg s 15 1 with
                framebuffer := fun j =>
                  if j = x + xl + rowY * 64 then
                    s.framebuffer (x + xl + rowY * 64) ^^^ 1
                  else s.framebuffer j }
            hnd2 (fun a ha hb => hin a (List.mem_cons_of_mem xl ha) hb)
        have hstep : drawBits pixel x rowY (xl :: L2) s =
            drawBits pixel x rowY L2
              { setReg s 15 1 with
                framebuffer := fun j =>
                  if j = x + xl + rowY * 64 then
                    s.framebuffer (x + xl + rowY * 64) ^^^ 1
                  else s.framebuffer j } := by
          conv_lhs => unfold drawBits
          rw [if_pos hbit, drawBit_collide s _ hlt hcol]
        have hvf15 : t.registers 15 = 1 := by
          by_cases hrest : ∃ a ∈ L2, pixel &&& (0x80 >>> a) ≠ 0 ∧
              ({ setReg s 15 1 with
                  framebuffer := fun j =>
                    if j = x + xl + rowY * 64 then
                      s.framebuffer (x + xl + rowY * 64) ^^^ 1
                    else s.framebuffer j } : Chip8).framebuffer
                (x + a + rowY * 64) = 1
          · exact hvf1 hrest
          · push_neg at hrest
            rw [hvf0 (fun a ha hb => hrest a ha hb)]
            exact setReg_at s 15 1
        refine ⟨t, hstep.trans hrun, ?_, ?_, ?_, ?_, fun _ => hvf15, ?_⟩
        · exact untouchedDraw_trans ⟨rfl, rfl, rfl, rfl, rfl, rfl, rfl, rfl,
            rfl, rfl, rfl, rfl, rfl⟩ hcore
        · intro j hj
          rw [hreg j hj]
          exact setReg_ne s 15 1 j hj
        · intro a ha hb
          rcases List.mem_cons.mp ha with h | h
          · subst h
            rw [hmiss (x + a + rowY * 64) ?_]
            · simp
            · intro c hc hcb heq
              have h2 : a = c := hinj c heq
              exact hxl (by rw [h2]; exact hc)
          · have hane : x + a + rowY * 64 ≠ x + xl + rowY * 64 := by
              intro heq
              have h2 : a = xl := by omega
              exact hxl (h2 ▸ h)
            rw [hhit a h hb]
            simp [hane]
        · intro j hj
          rw [hmiss j (fun a ha hb => hj a (List.mem_cons_of_mem xl ha) hb)]
          have hne : j ≠ x + xl + rowY * 64 :=
            hj xl (List.mem_cons_self xl L2) hbit
          simp [hne]
        · intro hall
          exact absurd hcol (hall xl (List.mem_cons_self xl L2) hbit)
      · -- no collision on this cell
        obtain ⟨t, hrun, hcore, hreg, hhit, hmiss, hvf1, hvf0⟩ :=
          ih { s with
                framebuffer := fun j =>
                  if j = x + xl + rowY * 64 then
                    s.framebuffer (x + xl + rowY * 64) ^^^ 1
                  else s.framebuffer j }
            hnd2 (fun a ha hb => hin a (List.mem_cons_of_mem xl ha) hb)
        have hstep : drawBits pixel x rowY (xl :: L2) s =
            drawBits pixel x rowY L2
              { s with
                framebuffer := fun j =>
                  if j = x + xl + rowY * 64 then
                    s.framebuffer (x + xl + rowY * 64) ^^^ 1
                  else s.framebuffer j } := by
          conv_lhs => unfold drawBits
          rw [if_pos hbit, drawBit_free s _ hlt hcol]
        refine ⟨t, hstep.trans hrun, ?_, hreg, ?_, ?_, ?_, ?_⟩
        · exact untouchedDraw_trans ⟨rfl, rfl, rfl, rfl, rfl, rfl, rfl, rfl,
            rfl, rfl, rfl, rfl, rfl⟩ hcore
        · intro a ha hb
          rcases List.mem_cons.mp ha with h | h
          · subst h
            rw [hmiss (x + a + rowY * 64) ?_]
            · simp
            · intro c hc hcb heq
              have h2 : a = c := hinj c heq
              exact hxl (by rw [h2]; exact hc)
          · have hane : x + a + rowY * 64 ≠ x + xl + rowY * 64 := by
              intro heq
              have h2 : a = xl := by omega
              exact hxl (h2 ▸ h)
            rw [hhit a h hb]
            simp [hane]
        · intro j hj
          rw [hmiss j (fun a ha hb => hj a (List.mem_cons_of_mem xl ha) hb)]
          have hne : j ≠ x + xl + rowY * 64 :=
            hj xl (List.mem_cons_self xl L2) hbit
          simp [hne]
        · intro hex
          obtain ⟨a, ha, hb, hc⟩ := hex
          rcases List.mem_cons.mp ha with h | h
          · subst h
            exact absurd hc hcol
          · apply hvf1
            have hane : x + a + rowY * 64 ≠ x + xl + rowY * 64 := by
              intro heq
              have h2 : a = xl := by omega
              exact hxl (h2 ▸ h)
            refine ⟨a, h, hb, ?_⟩
            simpa [hane] using hc
        · intro hall
          refine hvf0 ?_
          intro a ha hb
          have hane : x + a + rowY * 64 ≠ x + xl + rowY * 64 := by
            intro heq
            have h2 : a = xl := by omega
            exact hxl (h2 ▸ ha)
          simpa [hane] using hall a (List.mem_cons_of_mem xl ha) hb

theorem drawSprite_spec (x y : Nat) (R : List Nat) (s : Chip8)
    (hnd : R.Nodup)
    (hmem : ∀ yl ∈ R, s.index + yl < 4096)
    (hin : ∀ yl ∈ R, ∀ xl, xl < 8 →
      s.memory (s.index + yl) &&& (0x80 >>> xl) ≠ 0 →
      x + xl + (y + yl) * 64 < 2048) :
    ∃ t, drawSprite x y R s = .ok t ∧
      untouchedDraw s t ∧
      (∀ j, j ≠ 15 → t.registers j = s.registers j) ∧
      (∀ yl ∈ R, ∀ xl, xl < 8 →
        s.memory (s.index + yl) &&& (0x80 >>> xl) ≠ 0 →
        t.framebuffer (x + xl + (y + yl) * 64) =
          s.framebuffer (x + xl + (y + yl) * 64) ^^^ 1) ∧
      (∀ j, (∀ yl ∈ R, ∀ xl, xl < 8 →
          s.memory (s.index + yl) &&& (0x80 >>> xl) ≠ 0 →
          j ≠ x + xl + (y + yl) * 64) → t.framebuffer j = s.framebuffer j) ∧
      ((∃ yl ∈ R, ∃ xl, xl < 8 ∧
          s.memory (s.index + yl) &&& (0x80 >>> xl) ≠ 0 ∧
          s.framebuffer (x + xl + (y + yl) * 64) = 1) → t.registers 15 = 1) ∧
      ((∀ yl ∈ R, ∀ xl, xl < 8 →
          s.memory (s.index + yl) &&& (0x80 >>> xl) ≠ 0 →
          s.framebuffer (x + xl + (y + yl) * 64) ≠ 1) →
        t.registers 15 = s.registers 15) := by
  induction R generalizing s with
  | nil =>
    refine ⟨s, rfl, untouchedDraw_refl s, fun j _ => rfl, by simp,
      fun j _ => rfl, ?_, fun _ => rfl⟩
    intro h
    simp at h
  | cons yl R2 ih =>
    obtain ⟨hyl, hnd2⟩ := List.nodup_cons.mp hnd
    have hrow : s.index + yl < 4096 := hmem yl (List.mem_cons_self yl R2)
    have hrowne : ∀ a b c, a ≠ yl → b < 8 → c < 8 →
        x + b + (y + yl) * 64 ≠ x + c + (y + a) * 64 := by
      intro a b c ha hb hc heq
      have h2 : yl = a := by omega
      exact ha h2.symm
    obtain ⟨u, hrow_run, hrow_core, hrow_reg, hrow_hit, hrow_miss, hrow_vf1,
        hrow_vf0⟩ :=
      drawBits_spec (s.memory (s.index + yl)) x (y + yl) (List.range 8) s
        (List.nodup_range 8)
        (by
          intro xl hxl hb
          exact hin yl (List.mem_cons_self yl R2) xl (List.mem_range.mp hxl) hb)
    have humem : u.memory = s.memory := hrow_core.1
    have huidx : u.index = s.index := hrow_core.2.2.1
    obtain ⟨t, hrun, hcore, hreg, hhit, hmiss, hvf1, hvf0⟩ :=
      ih u hnd2
        (by
          intro a ha
          rw [huidx]
          exact hmem a (List.mem_cons_of_mem yl ha))
        (by
          intro a ha xl hxl hb
          rw [humem, huidx] at hb
          exact hin a (List.mem_cons_of_mem yl ha) xl hxl hb)
    have hstep : drawSprite x y (yl :: R2) s = drawSprite x y R2 u := by
      conv_lhs => unfold drawSprite
      rw [(show memRead s (s.index + yl) =
            .ok (s.memory (s.index + yl)) by
          unfold memRead
          rw [if_pos hrow])]
      dsimp only
      rw [hrow_run]
    have hbits2 : ∀ a, u.memory (u.index + a) = s.memory (s.index + a) := by
      intro a
      rw [humem, huidx]
    -- head-row cells are untouched by the later rows
    have hheadfb : ∀ xl, xl < 8 → t.framebuffer (x + xl + (y + yl) * 64)
        = u.framebuffer (x + xl + (y + yl) * 64) := by
      intro xl hxl
      apply hmiss
      intro a ha xl2 hxl2 hb2
      exact hrowne a xl xl2 (fun hae => hyl (hae ▸ ha)) hxl hxl2
    -- later-row cells are untouched by the head row
    have hrestfb : ∀ a, a ∈ R2 → ∀ xl, xl < 8 →
        u.framebuffer (x + xl + (y + a) * 64)
        = s.framebuffer (x + xl + (y + a) * 64) := by
      intro a ha xl hxl
      apply hrow_miss
      intro c hc hb2
      exact (hrowne a c xl (fun hae => hyl (hae ▸ ha))
        (List.mem_range.mp hc) hxl).symm
    refine ⟨t, hstep.trans hrun, untouchedDraw_trans hrow_core hcore,
      ?_, ?_, ?_, ?_, ?_⟩
    · intro j hj
      rw [hreg j hj, hrow_reg j hj]
    · intro a ha xl hxl hb
      rcases List.mem_cons.mp ha with h | h
      · subst h
        rw [hheadfb xl hxl]
        exact hrow_hit xl (List.mem_range.mpr hxl) hb
      · have hbu : u.memory (u.index + a) &&& (0x80 >>> xl) ≠ 0 := by
          rw [hbits2]
          exact hb
        have hbig := hhit a h xl hxl hbu
        rw [hrestfb a h xl hxl] at hbig
        exact hbig
    · intro j hj
      have h1 : t.framebuffer j = u.framebuffer j := by
        apply hmiss
        intro a ha xl hxl hb
        rw [hbits2] at hb
        exact hj a (List.mem_cons_of_mem yl ha) xl hxl hb
      have h2 : u.framebuffer j = s.framebuffer j := by
        apply hrow_miss
        intro c hc hb
        exact hj yl (List.mem_cons_self yl R2) c (List.mem_range.mp hc) hb
      rw [h1, h2]
    · intro hex
      obtain ⟨a, ha, xl, hxl, hb, hcol⟩ := hex
      rcases List.mem_cons.mp ha with h | h
      · subst h
        have hu15 : u.registers 15 = 1 :=
          hrow_vf1 ⟨xl, List.mem_range.mpr hxl, hb, hcol⟩
        by_cases hrest : ∃ c ∈ R2, ∃ d, d < 8 ∧
            u.memory (u.index + c) &&& (0x80 >>> d) ≠ 0 ∧
            u.framebuffer (x + d + (y + c) * 64) = 1
        · exact hvf1 hrest
        · push_neg at hrest
          rw [hvf0 (fun c hc d hd hb2 => hrest c hc d hd hb2)]
          exact hu15
      · apply hvf1
        refine ⟨a, h, xl, hxl, ?_, ?_⟩
        · rw [hbits2]
          exact hb
        · rw [hrestfb a h xl hxl]
          exact hcol
    · intro hall
      have hu15 : u.registers 15 = s.registers 15 :=
        hrow_vf0 (fun c hc hb =>
          hall yl (List.mem_cons_self yl R2) c (List.mem_range.mp hc) hb)
      have ht15 : t.registers 15 = u.registers 15 := by
        apply hvf0
        intro c hc d hd hb
        rw [hbits2] at hb
        rw [hrestfb c hc d hd]
        exact hall c (List.mem_cons_of_mem yl hc) d hd hb
      rw [ht15, hu15]

theorem drawBits_error (pixel x rowY : Nat) (L : List Nat) (s : Chip8)
    (hvio : ∃ xl ∈ L, pixel &&& (0x80 >>> xl) ≠ 0 ∧
      2048 ≤ x + xl + rowY * 64) :
    drawBits pixel x rowY L s = .error .IndexOutOfBounds := by
  induction L generalizing s with
  | nil => simp at hvio
  | cons xl L2 ih =>
    conv_lhs => unfold drawBits
    by_cases hbit : pixel &&& (0x80 >>> xl) = 0
    · rw [if_neg (not_not_intro hbit)]
      apply ih
      obtain ⟨a, ha, hb, hc⟩ := hvio
      rcases List.mem_cons.mp ha with h | h
      · subst h
        exact absurd hbit hb
      · exact ⟨a, h, hb, hc⟩
    · rw [if_pos hbit]
      by_cases hlt : x + xl + rowY * 64 < 2048
      · have hvio2 : ∃ a ∈ L2, pixel &&& (0x80 >>> a) ≠ 0 ∧
            2048 ≤ x + a + rowY * 64 := by
          obtain ⟨a, ha, hb, hc⟩ := hvio
          rcases List.mem_cons.mp ha with h | h
          · subst h
            omega
          · exact ⟨a, h, hb, hc⟩
        by_cases hcol : s.framebuffer (x + xl + rowY * 64) = 1
        · rw [drawBit_collide s _ hlt hcol]
          exact ih _ hvio2
        · rw [drawBit_free s _ hlt hcol]
          exact ih _ hvio2
      · rw [drawBit_oob s _ (by omega)]

theorem drawSprite_error (x y : Nat) (R : List Nat) (s : Chip8)
    (hmem : ∀ yl ∈ R, s.index + yl < 4096)
    (hvio : ∃ yl ∈ R, ∃ xl, xl < 8 ∧
      s.memory (s.index + yl) &&& (0x80 >>> xl) ≠ 0 ∧
      2048 ≤ x + xl + (y + yl) * 64) :
    drawSprite x y R s = .error .IndexOutOfBounds := by
  induction R generalizing s with
  | nil => simp at hvio
  | cons yl R2 ih =>
    have hrow : s.index + yl < 4096 := hmem yl (List.mem_cons_self yl R2)
    conv_lhs => unfold drawSprite
    rw [(show memRead s (s.index + yl) = .ok (s.memory (s.index + yl)) by
      unfold memRead
      rw [if_pos hrow])]
    dsimp only
    by_cases hhead : ∃ xl, xl < 8 ∧
        s.memory (s.index + yl) &&& (0x80 >>> xl) ≠ 0 ∧
        2048 ≤ x + xl + (y + yl) * 64
    · rw [drawBits_error (s.memory (s.index + yl)) x (y + yl) (List.range 8) s
        (by
          obtain ⟨xl, h8, hb, hc⟩ := hhead
          exact ⟨xl, List.mem_range.mpr h8, hb, hc⟩)]
    · push_neg at hhead
      obtain ⟨u, hrow_run, hrow_core, _, _, _, _, _⟩ :=
        drawBits_spec (s.memory (s.index + yl)) x (y + yl) (List.range 8) s
          (List.nodup_range 8)
          (by
            intro xl hxl hb
            exact hhead xl (List.mem_range.mp hxl) hb)
      rw [hrow_run]
      have humem : u.memory = s.memory := hrow_core.1
      have huidx : u.index = s.index := hrow_core.2.2.1
      apply ih
      · intro a ha
        rw [huidx]
        exact hmem a (List.mem_cons_of_mem yl ha)
      · obtain ⟨a, ha, xl, h8, hb, hc⟩ := hvio
        rcases List.mem_cons.mp ha with h | h
        · subst h
          exact absurd hc (by
            have := hhead xl h8 hb
            omega)
        · refine ⟨a, h, xl, h8, ?_, hc⟩
          rw [humem, huidx]
          exact hb

/-- Dispatch of a DXYN opcode whose blit loop ran to a state t. -/
theorem step_DXYN_ok (s : Chip8) (X Y n : Nat) (hX : X < 16) (hY : Y < 16)
    (hn : n < 16)
    (hpc : s.program_counter + 1 < 4096)
    (hhi : s.memory s.program_counter = 0xD0 + X)
    (hlo : s.memory (s.program_counter + 1) = Y * 16 + n)
    (t : Chip8)
    (hrun : drawSprite (s.registers X) (s.registers Y) (List.range n)
      (setReg { s with opcode := 0xD000 + X * 256 + Y * 16 + n } 15 0) = .ok t) :
    emulate_cycle s = .ok (tick { t with
      program_counter := (t.program_counter + 2) % 65536,
      redraw_flag := true }) := by
  have hfetch : (s.memory s.program_counter <<< 8) |||
      s.memory (s.program_counter + 1) = 0xD000 + X * 256 + Y * 16 + n := by
    rw [hhi, hlo, fetch_or _ _ (by omega)]
    ring
  have hm : (0xD000 + X * 256 + Y * 16 + n) &&& 0xF000 = 0xD000 := by
    rw [and_F000]; omega
  have hXe : ((0xD000 + X * 256 + Y * 16 + n) &&& 0x0F00) >>> 8 = X := by
    rw [and_0F00_shr]; omega
  have hYe : ((0xD000 + X * 256 + Y * 16 + n) &&& 0x00F0) >>> 4 = Y := by
    rw [and_00F0_shr]; omega
  have hN : (0xD000 + X * 256 + Y * 16 + n) &&& 0x000F = n := by
    rw [and_000F]; omega
  apply emulate_cycle_ok s _ hpc
  rw [hfetch]
  unfold execOpcode
  rw [hm, hXe, hYe, hN]
  dsimp only
  rw [hrun]

/-- Dispatch of a DXYN opcode whose blit loop faulted. -/
theorem step_DXYN_error (s : Chip8) (X Y n : Nat) (hX : X < 16) (hY : Y < 16)
    (hn : n < 16)
    (hpc : s.program_counter + 1 < 4096)
    (hhi : s.memory s.program_counter = 0xD0 + X)
    (hlo : s.memory (s.program_counter + 1) = Y * 16 + n)
    (e : Fault)
    (hrun : drawSprite (s.registers X) (s.registers Y) (List.range n)
      (setReg { s with opcode := 0xD000 + X * 256 + Y * 16 + n } 15 0) =
      .error e) :
    emulate_cycle s = .error e := by
  have hfetch : (s.memory s.program_counter <<< 8) |||
      s.memory (s.program_counter + 1) = 0xD000 + X * 256 + Y * 16 + n := by
    rw [hhi, hlo, fetch_or _ _ (by omega)]
    ring
  have hm : (0xD000 + X * 256 + Y * 16 + n) &&& 0xF000 = 0xD000 := by
    rw [and_F000]; omega
  have hXe : ((0xD000 + X * 256 + Y * 16 + n) &&& 0x0F00) >>> 8 = X := by
    rw [and_0F00_shr]; omega
  have hYe : ((0xD000 + X * 256 + Y * 16 + n) &&& 0x00F0) >>> 4 = Y := by
    rw [and_00F0_shr]; omega
  have hN : (0xD000 + X * 256 + Y * 16 + n) &&& 0x000F = n := by
    rw [and_000F]; omega
  apply emulate_cycle_error s _ hpc
  rw [hfetch]
  unfold execOpcode
  rw [hm, hXe, hYe, hN]
  dsimp only
  rw [hrun]

/-- C10: DXYN applies no clipping and no modular wrap: each set sprite bit
is XOR-written at flat framebuffer index VX + col + (VY + row) * 64 (so a
sprite past the right edge bleeds into the next row), and the blit touches
only valid cells exactly when that flat index is below 2048 for every set
bit; when some set bit reaches 2048 the framebuffer access is out of
bounds and the cycle faults. -/
theorem c10_draw_no_clipping (s : Chip8) (X Y n : Nat)
    (hX : X < 16) (hY : Y < 16) (hn : n < 16)
    (hpc : s.program_counter + 1 < 4096)
    (hhi : s.memory s.program_counter = 0xD0 + X)
    (hlo : s.memory (s.program_counter + 1) = Y * 16 + n)
    (hidx : s.index + n ≤ 4096) :
    ((∀ row, row < n → ∀ col, col < 8 →
        s.memory (s.index + row) &&& (0x80 >>> col) ≠ 0 →
        s.registers X + col + (s.registers Y + row) * 64 < 2048) →
      ∃ t, emulate_cycle s = .ok t ∧
        (∀ row, row < n → ∀ col, col < 8 →
          s.memory (s.index + row) &&& (0x80 >>> col) ≠ 0 →
          t.framebuffer (s.registers X + col + (s.registers Y + row) * 64) =
            s.framebuffer (s.registers X + col + (s.registers Y + row) * 64)
              ^^^ 1)) ∧
    ((¬ ∀ row, row < n → ∀ col, col < 8 →
        s.memory (s.index + row) &&& (0x80 >>> col) ≠ 0 →
        s.registers X + col + (s.registers Y + row) * 64 < 2048) →
      emulate_cycle s = .error .IndexOutOfBounds) := by
  constructor
  · intro hbound
    obtain ⟨t, hrun, hcore, hreg, hhit, hmiss, hvf1, hvf0⟩ :=
      drawSprite_spec (s.registers X) (s.registers Y) (List.range n)
        (setReg { s with opcode := 0xD000 + X * 256 + Y * 16 + n } 15 0)
        (List.nodup_range n)
        (by
          intro yl hyl
          show s.index + yl < 4096
          have := List.mem_range.mp hyl
          omega)
        (by
          intro yl hyl xl hxl hb
          exact hbound yl (List.mem_range.mp hyl) xl hxl hb)
    refine ⟨_, step_DXYN_ok s X Y n hX hY hn hpc hhi hlo t hrun, ?_⟩
    intro row hrow col hcol hb
    rw [tick_framebuffer]
    show t.framebuffer _ = _
    exact hhit row (List.mem_range.mpr hrow) col hcol hb
  · intro hbound
    push_neg at hbound
    apply step_DXYN_error s X Y n hX hY hn hpc hhi hlo
    apply drawSprite_error
    · intro yl hyl
      show s.index + yl < 4096
      have := List.mem_range.mp hyl
      omega
    · obtain ⟨row, hrow, col, hcol, hb, hc⟩ := hbound
      exact ⟨row, List.mem_range.mpr hrow, col, hcol, hb, by omega⟩

theorem c10_draw_no_clipping_witness :
    okFB 60 (emulate_cycle c10state) = some 1 := by
  obtain ⟨t, hrun, hfb⟩ := (c10_draw_no_clipping c10state 0 1 1
    (by norm_num) (by norm_num) (by norm_num)
    (by norm_num [c10state, zeroState])
    (by norm_num [c10state, zeroState])
    (by norm_num [c10state, zeroState])
    (by norm_num [c10state, zeroState])).1
    (by decide)
  rw [hrun]
  simp only [okFB]
  have h := hfb 0 (by norm_num) 0 (by norm_num) (by decide)
  norm_num [c10state, zeroState] at h ⊢
  rw [h]

set_option maxRecDepth 4096 in
/-- A nonzero byte has at least one set bit among the 8 sprite masks. -/
theorem byte_has_bit : ∀ v, v < 256 → v ≠ 0 →
    ∃ col, col < 8 ∧ v &&& (0x80 >>> col) ≠ 0 := by decide

/-- C7: drawing the same 8 by 1 sprite twice at the same origin over an
initially clear region turns every touched cell back off, with collision
flag 0 after the first draw and 1 after the second; the flag is cleared at
the start of each draw regardless of its previous value. -/
theorem c7_draw_twice_collision (s : Chip8) (X Y : Nat)
    (hX : X < 15) (hY : Y < 15)
    (hpc : s.program_counter + 3 < 4096)
    (hhi : s.memory s.program_counter = 0xD0 + X)
    (hlo : s.memory (s.program_counter + 1) = Y * 16 + 1)
    (hhi2 : s.memory (s.program_counter + 2) = 0xD0 + X)
    (hlo2 : s.memory (s.program_counter + 3) = Y * 16 + 1)
    (hidx : s.index < 4096)
    (hbyte : s.memory s.index < 256)
    (hsprite : s.memory s.index ≠ 0)
    (hbounds : s.registers X + 7 + s.registers Y * 64 < 2048)
    (hoff : ∀ col, col < 8 → s.memory s.index &&& (0x80 >>> col) ≠ 0 →
      s.framebuffer (s.registers X + col + s.registers Y * 64) = 0) :
    ∃ t1, emulate_cycle s = .ok t1 ∧ t1.registers 15 = 0 ∧
      ∃ t2, emulate_cycle t1 = .ok t2 ∧ t2.registers 15 = 1 ∧
        ∀ col, col < 8 → s.memory s.index &&& (0x80 >>> col) ≠ 0 →
          t2.framebuffer (s.registers X + col + s.registers Y * 64) = 0 := by
  -- first draw
  obtain ⟨u, hrun_u, hcore_u, hreg_u, hhit_u, hmiss_u, hvf1_u, hvf0_u⟩ :=
    drawSprite_spec (s.registers X) (s.registers Y) (List.range 1)
      (setReg { s with opcode := 0xD000 + X * 256 + Y * 16 + 1 } 15 0)
      (List.nodup_range 1)
      (by
        intro yl hyl
        show s.index + yl < 4096
        have := List.mem_range.mp hyl
        omega)
      (by
        intro yl hyl xl hxl hb
        have h0 : yl = 0 := by
          have := List.mem_range.mp hyl
          omega
        subst h0
        show s.registers X + xl + (s.registers Y + 0) * 64 < 2048
        omega)
  have hu15 : u.registers 15 = 0 := by
    have h := hvf0_u (by
      intro yl hyl xl hxl hb
      have h0 : yl = 0 := by
        have := List.mem_range.mp hyl
        omega
      subst h0
      have hb2 : s.memory (s.index + 0) &&& (0x80 >>> xl) ≠ 0 := hb
      have hb3 : s.memory s.index &&& (0x80 >>> xl) ≠ 0 := by
        simpa using hb2
      show s.framebuffer (s.registers X + xl + (s.registers Y + 0) * 64) ≠ 1
      rw [(show s.registers X + xl + (s.registers Y + 0) * 64 =
        s.registers X + xl + s.registers Y * 64 by ring)]
      rw [hoff xl hxl hb3]
      norm_num)
    rw [h]
    exact setReg_at _ 15 0
  have hstep1 := step_DXYN_ok s X Y 1 (by omega) (by omega) (by norm_num)
    (by omega) hhi hlo u hrun_u
  set t1 := (tick { u with
    program_counter := (u.program_counter + 2) % 65536,
    redraw_flag := true }) with ht1def
  have hupc : u.program_counter = s.program_counter := hcore_u.2.1
  have humem : u.memory = s.memory := hcore_u.1
  have huidx : u.index = s.index := hcore_u.2.2.1
  have ht1pc : t1.program_counter = s.program_counter + 2 := by
    rw [ht1def, tick_program_counter]
    show (u.program_counter + 2) % 65536 = s.program_counter + 2
    rw [hupc]
    omega
  have ht1mem : t1.memory = s.memory := by
    rw [ht1def, tick_memory]
    exact humem
  have ht1idx : t1.index = s.index := by
    rw [ht1def, tick_index]
    exact huidx
  have ht1regs : t1.registers = u.registers := by
    rw [ht1def, tick_registers]
  have ht1_15 : t1.registers 15 = 0 := by
    rw [ht1regs]
    exact hu15
  have ht1regX : t1.registers X = s.registers X := by
    rw [ht1regs, hreg_u X (by omega)]
    exact setReg_ne _ 15 0 X (by omega)
  have ht1regY : t1.registers Y = s.registers Y := by
    rw [ht1regs, hreg_u Y (by omega)]
    exact setReg_ne _ 15 0 Y (by omega)
  have ht1fb : ∀ col, col < 8 → s.memory s.index &&& (0x80 >>> col) ≠ 0 →
      t1.framebuffer (s.registers X + col + s.registers Y * 64) = 1 := by
    intro col h8 hbcol
    rw [ht1def, tick_framebuffer]
    show u.framebuffer (s.registers X + col + s.registers Y * 64) = 1
    have h := hhit_u 0 (List.mem_range.mpr (by norm_num)) col h8
      (by
        show s.memory (s.index + 0) &&& (0x80 >>> col) ≠ 0
        simpa using hbcol)
    rw [(show s.registers X + col + (s.registers Y + 0) * 64 =
      s.registers X + col + s.registers Y * 64 by ring)] at h
    rw [h]
    show s.framebuffer (s.registers X + col + s.registers Y * 64) ^^^ 1 = 1
    rw [hoff col h8 hbcol]
    decide
  -- second draw
  obtain ⟨v, hrun_v, hcore_v, hreg_v, hhit_v, hmiss_v, hvf1_v, hvf0_v⟩ :=
    drawSprite_spec (t1.registers X) (t1.registers Y) (List.range 1)
      (setReg { t1 with opcode := 0xD000 + X * 256 + Y * 16 + 1 } 15 0)
      (List.nodup_range 1)
      (by
        intro yl hyl
        show t1.index + yl < 4096
        rw [ht1idx]
        have := List.mem_range.mp hyl
        omega)
      (by
        intro yl hyl xl hxl hb
        have h0 : yl = 0 := by
          have := List.mem_range.mp hyl
          omega
        subst h0
        show t1.registers X + xl + (t1.registers Y + 0) * 64 < 2048
        rw [ht1regX, ht1regY]
        omega)
  have hsb : ∀ col, s.memory s.index &&& (0x80 >>> col) ≠ 0 →
      t1.memory (t1.index + 0) &&& (0x80 >>> col) ≠ 0 := by
    intro col h
    rw [ht1mem, ht1idx]
    simpa using h
  have hv15 : v.registers 15 = 1 := by
    obtain ⟨col, h8, hbcol⟩ := byte_has_bit (s.memory s.index) hbyte hsprite
    apply hvf1_v
    refine ⟨0, List.mem_range.mpr (by norm_num), col, h8, ?_, ?_⟩
    · show t1.memory (t1.index + 0) &&& (0x80 >>> col) ≠ 0
      exact hsb col hbcol
    · show t1.framebuffer (t1.registers X + col + (t1.registers Y + 0) * 64) = 1
      rw [(show t1.registers X + col + (t1.registers Y + 0) * 64 =
        t1.registers X + col + t1.registers Y * 64 by ring), ht1regX, ht1regY]
      exact ht1fb col h8 hbcol
  have hstep2 := step_DXYN_ok t1 X Y 1 (by omega) (by omega) (by norm_num)
    (by rw [ht1pc]; omega)
    (by rw [ht1pc, ht1mem]; exact hhi2)
    (by
      rw [ht1pc, ht1mem]
      rw [(show s.program_counter + 2 + 1 = s.program_counter + 3 by ring)]
      exact hlo2)
    v hrun_v
  refine ⟨t1, hstep1, ht1_15, _, hstep2, ?_, ?_⟩
  · rw [tick_registers]
    show v.registers 15 = 1
    exact hv15
  · intro col h8 hbcol
    rw [tick_framebuffer]
    show v.framebuffer (s.registers X + col + s.registers Y * 64) = 0
    have h := hhit_v 0 (List.mem_range.mpr (by norm_num)) col h8
      (by
        show t1.memory (t1.index + 0) &&& (0x80 >>> col) ≠ 0
        exact hsb col hbcol)
    rw [(show t1.registers X + col + (t1.registers Y + 0) * 64 =
      t1.registers X + col + t1.registers Y * 64 by ring), ht1regX, ht1regY]
      at h
    rw [h]
    show t1.framebuffer (s.registers X + col + s.registers Y * 64) ^^^ 1 = 0
    rw [ht1fb col h8 hbcol]
    decide

theorem c7_draw_twice_collision_witness :
    okReg 15 (stepN c7state 1) = some 0 ∧
    okReg 15 (stepN c7state 2) = some 1 ∧
    okFB 138 (stepN c7state 2) = some 0 := by
  obtain ⟨t1, ht1, hvf0, t2, ht2, hvf1, hfb⟩ :=
    c7_draw_twice_collision c7state 0 1 (by norm_num) (by norm_num)
      (by norm_num [c7state, zeroState])
      (by norm_num [c7state, zeroState])
      (by norm_num [c7state, zeroState])
      (by norm_num [c7state, zeroState])
      (by norm_num [c7state, zeroState])
      (by norm_num [c7state, zeroState])
      (by norm_num [c7state, zeroState])
      (by norm_num [c7state, zeroState])
      (by norm_num [c7state, zeroState])
      (by
        intro col h8 hb
        rfl)
  have hs1 : stepN c7state 1 = .ok t1 := by
    unfold stepN
    rw [ht1]
    rfl
  have hs2 : stepN c7state 2 = .ok t2 := by
    unfold stepN
    rw [ht1]
    unfold stepN
    rw [ht2]
    rfl
  have hcell := hfb 0 (by norm_num) (by decide)
  refine ⟨?_, ?_, ?_⟩
  · rw [hs1]
    simp only [okReg]
    rw [hvf0]
  · rw [hs2]
    simp only [okReg]
    rw [hvf1]
  · rw [hs2]
    simp only [okFB]
    norm_num [c7state, zeroState] at hcell
    rw [hcell]

end Chip8Rs
